import Mathlib

set_option autoImplicit false

/- Verification of the technical indicator pipeline of the BazaarX repository,
   file scripts/feature_engineering.py, functions calculate_technical_indicators,
   calculate_atr and get_trading_signals.  A pandas column is modeled as a Lean
   list; the floating point values of numpy are modeled as an extended domain
   with exact real numbers, two infinities and NaN, following IEEE semantics
   for arithmetic and comparisons. -/

/-- Extended floating point style value domain used by the pipeline model:
a finite real number, positive infinity, negative infinity, or NaN.  Finite
values are idealized as exact reals. -/
inductive EF where
  | fin (x : ℝ)
  | pinf
  | ninf
  | nan

/-- IEEE addition on the extended domain. -/
noncomputable def EF.add : EF → EF → EF
  | .nan, _ => .nan
  | _, .nan => .nan
  | .fin a, .fin b => .fin (a + b)
  | .fin _, .pinf => .pinf
  | .fin _, .ninf => .ninf
  | .pinf, .fin _ => .pinf
  | .pinf, .pinf => .pinf
  | .pinf, .ninf => .nan
  | .ninf, .fin _ => .ninf
  | .ninf, .pinf => .nan
  | .ninf, .ninf => .ninf

/-- IEEE negation on the extended domain. -/
noncomputable def EF.neg : EF → EF
  | .nan => .nan
  | .fin a => .fin (-a)
  | .pinf => .ninf
  | .ninf => .pinf

/-- IEEE subtraction on the extended domain. -/
noncomputable def EF.sub (a b : EF) : EF := EF.add a (EF.neg b)

/-- IEEE multiplication on the extended domain; infinity times zero is NaN. -/
noncomputable def EF.mul : EF → EF → EF
  | .nan, _ => .nan
  | _, .nan => .nan
  | .fin a, .fin b => .fin (a * b)
  | .fin a, .pinf => if 0 < a then .pinf else if a < 0 then .ninf else .nan
  | .fin a, .ninf => if 0 < a then .ninf else if a < 0 then .pinf else .nan
  | .pinf, .fin b => if 0 < b then .pinf else if b < 0 then .ninf else .nan
  | .ninf, .fin b => if 0 < b then .ninf else if b < 0 then .pinf else .nan
  | .pinf, .pinf => .pinf
  | .pinf, .ninf => .ninf
  | .ninf, .pinf => .ninf
  | .ninf, .ninf => .pinf

/-- IEEE division on the extended domain: a nonzero finite number divided by
zero gives a signed infinity, zero divided by zero gives NaN, a finite number
divided by an infinity gives zero, an infinity divided by an infinity gives
NaN. -/
noncomputable def EF.div : EF → EF → EF
  | .nan, _ => .nan
  | _, .nan => .nan
  | .fin a, .fin b =>
      if b = 0 then (if 0 < a then .pinf else if a < 0 then .ninf else .nan)
      else .fin (a / b)
  | .fin _, .pinf => .fin 0
  | .fin _, .ninf => .fin 0
  | .pinf, .fin b => if 0 ≤ b then .pinf else .ninf
  | .ninf, .fin b => if 0 ≤ b then .ninf else .pinf
  | .pinf, .pinf => .nan
  | .pinf, .ninf => .nan
  | .ninf, .pinf => .nan
  | .ninf, .ninf => .nan

/-- IEEE strict comparison as a boolean mask entry; every comparison against
NaN is false. -/
noncomputable def EF.ltB : EF → EF → Bool
  | .nan, _ => false
  | _, .nan => false
  | .fin a, .fin b => decide (a < b)
  | .fin _, .pinf => true
  | .fin _, .ninf => false
  | .pinf, _ => false
  | .ninf, .fin _ => true
  | .ninf, .pinf => true
  | .ninf, .ninf => false

/-- IEEE non strict comparison as a boolean mask entry; every comparison
against NaN is false. -/
noncomputable def EF.leB : EF → EF → Bool
  | .nan, _ => false
  | _, .nan => false
  | .fin a, .fin b => decide (a ≤ b)
  | .fin _, .pinf => true
  | .fin _, .ninf => false
  | .pinf, .pinf => true
  | .pinf, _ => false
  | .ninf, _ => true

/-- The numpy sign function on the extended domain. -/
noncomputable def EF.sign : EF → EF
  | .nan => .nan
  | .pinf => .fin 1
  | .ninf => .fin (-1)
  | .fin a => .fin (if 0 < a then 1 else if a < 0 then -1 else 0)

/-- The pandas fillna with argument zero, applied to one entry. -/
noncomputable def fillna0 : EF → EF
  | .nan => .fin 0
  | e => e

/-- The pandas call rolling(window=w, min periods=1).mean() on a column of
finite values: at each position the mean of the trailing at most w values,
always defined. -/
noncomputable def rollingMeanMin1 (w : Nat) (xs : List ℝ) : List ℝ :=
  (List.range xs.length).map (fun t =>
    ((xs.take (t + 1)).drop (t + 1 - w)).sum /
      ((((xs.take (t + 1)).drop (t + 1 - w)).length : ℝ)))

/-- The pandas call rolling(window=w).mean() with the default strict minimum
period: NaN before the window is full, thereafter the mean of the trailing w
values. -/
noncomputable def rollingMeanStrict (w : Nat) (xs : List ℝ) : List EF :=
  (List.range xs.length).map (fun t =>
    if t + 1 < w then EF.nan
    else EF.fin (((xs.take (t + 1)).drop (t + 1 - w)).sum / (w : ℝ)))

/-- The pandas call rolling(window=w).std() with the default strict minimum
period and the default ddof of one: NaN before the window is full, thereafter
the square root of the sample variance of the trailing w values. -/
noncomputable def rollingStdStrict (w : Nat) (xs : List ℝ) : List EF :=
  (List.range xs.length).map (fun t =>
    if t + 1 < w then EF.nan
    else
      EF.fin (Real.sqrt
        ((((xs.take (t + 1)).drop (t + 1 - w)).map
            (fun x => (x - ((xs.take (t + 1)).drop (t + 1 - w)).sum / (w : ℝ)) ^ 2)).sum /
          ((w : ℝ) - 1))))

/-- The pandas call rolling(window=w).max() with the strict minimum period. -/
noncomputable def rollingMaxStrict (w : Nat) (xs : List ℝ) : List EF :=
  (List.range xs.length).map (fun t =>
    if t + 1 < w then EF.nan
    else
      match (xs.take (t + 1)).drop (t + 1 - w) with
      | [] => EF.nan
      | y :: ys => EF.fin (ys.foldl max y))

/-- The pandas call rolling(window=w).min() with the strict minimum period. -/
noncomputable def rollingMinStrict (w : Nat) (xs : List ℝ) : List EF :=
  (List.range xs.length).map (fun t =>
    if t + 1 < w then EF.nan
    else
      match (xs.take (t + 1)).drop (t + 1 - w) with
      | [] => EF.nan
      | y :: ys => EF.fin (ys.foldl min y))

/-- Tail of the exponentially weighted mean recursion with smoothing factor a,
given the previous smoothed value. -/
noncomputable def ewmAux (a : ℝ) (prev : ℝ) : List ℝ → List ℝ
  | [] => []
  | x :: xs => ((1 - a) * prev + a * x) :: ewmAux a ((1 - a) * prev + a * x) xs

/-- The pandas call ewm(..., adjust=False).mean() with smoothing factor a:
seeded by the first observed value, then the recursive form. -/
noncomputable def ewm (a : ℝ) : List ℝ → List ℝ
  | [] => []
  | x :: xs => x :: ewmAux a x xs

/-- The pandas call diff() on a column of finite values: NaN at the first
position, then consecutive differences. -/
noncomputable def diff : List ℝ → List EF
  | [] => []
  | x :: rest => EF.nan :: List.zipWith (fun a b => EF.fin (b - a)) (x :: rest) rest

/-- The pandas call shift(1) on a column: NaN at the first position, every
other value moved one position later, the last value dropped. -/
def shift1 : List EF → List EF
  | [] => []
  | x :: xs => EF.nan :: (x :: xs).dropLast

/-- Running sum used by the cumulative sum below. -/
noncomputable def cumsumEFAux (acc : EF) : List EF → List EF
  | [] => []
  | x :: xs => (EF.add acc x) :: cumsumEFAux (EF.add acc x) xs

/-- The pandas call cumsum() on a column of extended values. -/
noncomputable def cumsumEF (xs : List EF) : List EF := cumsumEFAux (EF.fin 0) xs

/- Column computations of calculate_technical_indicators, one definition per
   assignment in the source, each a function of the Close column and the
   integer parameters. -/

/-- Column delta.where(delta gt 0, 0): the per bar gain.  A NaN delta compares
false, hence is replaced by the fill value zero, so the result is finite. -/
noncomputable def gain_col (close : List ℝ) : List ℝ :=
  (diff close).map (fun d =>
    match d with
    | EF.fin x => if 0 < x then x else 0
    | _ => 0)

/-- Column minus delta.where(delta lt 0, 0): the per bar loss, nonnegative. -/
noncomputable def loss_col (close : List ℝ) : List ℝ :=
  (diff close).map (fun d =>
    match d with
    | EF.fin x => if x < 0 then -x else 0
    | _ => 0)

/-- Column gain.ewm(alpha=1/window, adjust=False).mean(). -/
noncomputable def avg_gain_col (window : Nat) (close : List ℝ) : List ℝ :=
  ewm (1 / (window : ℝ)) (gain_col close)

/-- Column loss.ewm(alpha=1/window, adjust=False).mean(). -/
noncomputable def avg_loss_col (window : Nat) (close : List ℝ) : List ℝ :=
  ewm (1 / (window : ℝ)) (loss_col close)

/-- Column rs = avg gain / avg loss, an elementwise float division, so a
signed infinity on x/0 with x nonzero and NaN on 0/0. -/
noncomputable def rs_col (window : Nat) (close : List ℝ) : List EF :=
  (List.range close.length).map (fun t =>
    EF.div (EF.fin ((avg_gain_col window close).getD t 0))
      (EF.fin ((avg_loss_col window close).getD t 0)))

/-- Column RSI = 100 - (100 / (1 + rs)), elementwise on the extended domain. -/
noncomputable def rsi_col (window : Nat) (close : List ℝ) : List EF :=
  (rs_col window close).map (fun r =>
    EF.sub (EF.fin 100) (EF.div (EF.fin 100) (EF.add (EF.fin 1) r)))

/-- Column SMA with the minimum period relaxation, windows 14, 50 and 200. -/
noncomputable def sma_col (w : Nat) (close : List ℝ) : List EF :=
  (rollingMeanMin1 w close).map EF.fin

/-- Column EMA with the given span: ewm(span=span, adjust=False).mean(), so
the smoothing factor is 2/(span+1). -/
noncomputable def ema_col (span : Nat) (close : List ℝ) : List ℝ :=
  ewm (2 / ((span : ℝ) + 1)) close

/-- Column MACD = EMA(short) - EMA(long). -/
noncomputable def macd_col (s l : Nat) (close : List ℝ) : List ℝ :=
  List.zipWith (fun a b => a - b) (ema_col s close) (ema_col l close)

/-- Column MACD signal: ewm(span=signal, adjust=False).mean() of MACD. -/
noncomputable def macd_signal_col (s l sig : Nat) (close : List ℝ) : List ℝ :=
  ewm (2 / ((sig : ℝ) + 1)) (macd_col s l close)

/-- Column MACD histogram = MACD - MACD signal. -/
noncomputable def macd_hist_col (s l sig : Nat) (close : List ℝ) : List ℝ :=
  List.zipWith (fun a b => a - b) (macd_col s l close) (macd_signal_col s l sig close)

/-- Column BB middle: strict rolling mean of twenty bars. -/
noncomputable def bb_middle_col (close : List ℝ) : List EF :=
  rollingMeanStrict 20 close

/-- Intermediate bb std: strict rolling sample standard deviation of twenty
bars, not itself stored as a column. -/
noncomputable def bb_std_col (close : List ℝ) : List EF :=
  rollingStdStrict 20 close

/-- Column BB upper = BB middle + bb std * 2. -/
noncomputable def bb_upper_col (close : List ℝ) : List EF :=
  List.zipWith (fun m s => EF.add m (EF.mul s (EF.fin 2)))
    (bb_middle_col close) (bb_std_col close)

/-- Column BB lower = BB middle - bb std * 2. -/
noncomputable def bb_lower_col (close : List ℝ) : List EF :=
  List.zipWith (fun m s => EF.sub m (EF.mul s (EF.fin 2)))
    (bb_middle_col close) (bb_std_col close)

/-- Column BB width = BB upper - BB lower. -/
noncomputable def bb_width_col (close : List ℝ) : List EF :=
  List.zipWith EF.sub (bb_upper_col close) (bb_lower_col close)

/-- Column BB position = (Close - BB lower) / (BB upper - BB lower). -/
noncomputable def bb_position_col (close : List ℝ) : List EF :=
  (List.range close.length).map (fun t =>
    EF.div
      (EF.sub (EF.fin (close.getD t 0)) ((bb_lower_col close).getD t EF.nan))
      (EF.sub ((bb_upper_col close).getD t EF.nan) ((bb_lower_col close).getD t EF.nan)))

/-- Column Close - Close.shift(lag). -/
noncomputable def momentum_col (lag : Nat) (close : List ℝ) : List EF :=
  (List.range close.length).map (fun t =>
    if t < lag then EF.nan
    else EF.fin (close.getD t 0 - close.getD (t - lag) 0))

/-- Column pct change() * 100: Close over previous Close, minus one, times a
hundred; NaN at the first bar. -/
noncomputable def pct_change_col (close : List ℝ) : List EF :=
  (List.range close.length).map (fun t =>
    if t = 0 then EF.nan
    else
      EF.mul
        (EF.sub (EF.div (EF.fin (close.getD t 0)) (EF.fin (close.getD (t - 1) 0)))
          (EF.fin 1))
        (EF.fin 100))

/-- Column Volume SMA: strict rolling mean of twenty bars of Volume. -/
noncomputable def vol_sma_col (vol : List ℝ) : List EF :=
  rollingMeanStrict 20 vol

/-- Column Volume / Volume SMA, an elementwise float division. -/
noncomputable def vol_ratio_col (vol : List ℝ) : List EF :=
  (List.range vol.length).map (fun t =>
    EF.div (EF.fin (vol.getD t 0)) ((vol_sma_col vol).getD t EF.nan))

/-- Column OBV: cumulative sum of sign of the Close delta times Volume, after
filling NaN with zero. -/
noncomputable def obv_col (close vol : List ℝ) : List EF :=
  cumsumEF ((List.range close.length).map (fun t =>
    fillna0 (EF.mul (EF.sign ((diff close).getD t EF.nan)) (EF.fin (vol.getD t 0)))))

/-- Column Volatility: strict rolling standard deviation over the primary
window. -/
noncomputable def volatility_col (window : Nat) (close : List ℝ) : List EF :=
  rollingStdStrict window close

/-- The true range of calculate_atr: the rowwise maximum, skipping NaN, of
high minus low, the absolute high to previous close move and the absolute low
to previous close move; at the first bar only high minus low is defined. -/
noncomputable def true_range (high low close : List ℝ) : List ℝ :=
  (List.range high.length).map (fun t =>
    if t = 0 then high.getD 0 0 - low.getD 0 0
    else
      max (high.getD t 0 - low.getD t 0)
        (max |high.getD t 0 - close.getD (t - 1) 0|
          |low.getD t 0 - close.getD (t - 1) 0|))

/-- The function calculate_atr of the source, on the three columns it reads:
the strict rolling mean of the true range over the window. -/
noncomputable def calculate_atr (high low close : List ℝ) (window : Nat) : List EF :=
  rollingMeanStrict window (true_range high low close)

/-- Column Resistance: strict rolling maximum of High over twenty bars. -/
noncomputable def resistance_col (high : List ℝ) : List EF :=
  rollingMaxStrict 20 high

/-- Column Support: strict rolling minimum of Low over twenty bars. -/
noncomputable def support_col (low : List ℝ) : List EF :=
  rollingMinStrict 20 low

/-- Column Price Above SMA50: one where Close is greater than SMA 50, else
zero, cast to int. -/
noncomputable def price_above_sma50_col (close : List ℝ) : List EF :=
  (List.range close.length).map (fun t =>
    EF.fin (if (rollingMeanMin1 50 close).getD t 0 < close.getD t 0 then 1 else 0))

/-- Column EMA Cross: one where EMA short is above EMA long, minus one where
below, else zero. -/
noncomputable def ema_cross_col (s l : Nat) (close : List ℝ) : List EF :=
  (List.range close.length).map (fun t =>
    EF.fin
      (if (ema_col l close).getD t 0 < (ema_col s close).getD t 0 then 1
       else if (ema_col s close).getD t 0 < (ema_col l close).getD t 0 then -1
       else 0))

/- The frame model: an association list from column names to columns, with
   the column labels of the source as an enumerated type. -/

/-- The column labels used by the source, as an enumerated type standing for
the pandas string labels. -/
inductive ColName where
  | Open | High | Low | Close | Volume
  | SMA_14 | SMA_50 | SMA_200 | EMA_12 | EMA_26
  | MACD | MACD_Signal | MACD_Histogram | RSI
  | BB_Middle | BB_Upper | BB_Lower | BB_Width | BB_Position
  | Momentum_10 | Momentum_14 | Price_Change_Pct
  | Volume_SMA | Volume_Ratio | OBV
  | Volatility | ATR | Resistance | Support
  | Price_Above_SMA50 | EMA_Cross
  | Buy_Signal | Sell_Signal
deriving DecidableEq

/-- Errors of the pipeline: the missing Close validation error raised by
calculate_technical_indicators, and the key error raised by pandas when
get_trading_signals reads an absent column. -/
inductive PipeError where
  | MissingColumn (c : ColName)
  | KeyError (c : ColName)
deriving DecidableEq

/-- First column with the given name in a frame, if any. -/
def getCol {α : Type} (n : ColName) : List (ColName × α) → Option α
  | [] => none
  | p :: rest => if p.1 = n then some p.2 else getCol n rest

/-- Column assignment on a frame, with pandas semantics: replace the column
in place when the name exists, otherwise append the new column at the end. -/
def setCol {α : Type} : List (ColName × α) → ColName → α → List (ColName × α)
  | [], n, v => [(n, v)]
  | p :: rest, n, v => if p.1 = n then (n, v) :: rest else p :: setCol rest n v

/-- The volume guarded block of calculate_technical_indicators: when a Volume
column exists, assign Volume SMA, Volume Ratio and OBV, otherwise leave the
frame unchanged. -/
noncomputable def volumeBlock (data : List (ColName × List ℝ)) (close : List ℝ)
    (f : List (ColName × List EF)) : List (ColName × List EF) :=
  match getCol ColName.Volume data with
  | none => f
  | some vol =>
      setCol
        (setCol (setCol f ColName.Volume_SMA (vol_sma_col vol))
          ColName.Volume_Ratio (vol_ratio_col vol))
        ColName.OBV (obv_col close vol)

/-- The ATR assignment of calculate_technical_indicators: the ATR column is
always created, from calculate_atr when High, Low and Close are all present,
otherwise as the NaN scalar broadcast over the rows. -/
noncomputable def atrBlock (data : List (ColName × List ℝ)) (close : List ℝ)
    (f : List (ColName × List EF)) : List (ColName × List EF) :=
  match getCol ColName.High data, getCol ColName.Low data with
  | some high, some low => setCol f ColName.ATR (calculate_atr high low close 14)
  | _, _ => setCol f ColName.ATR (List.replicate close.length EF.nan)

/-- The support and resistance guarded block of
calculate_technical_indicators: only when High and Low are both present. -/
noncomputable def srBlock (data : List (ColName × List ℝ))
    (f : List (ColName × List EF)) : List (ColName × List EF) :=
  match getCol ColName.High data, getCol ColName.Low data with
  | some high, some low =>
      setCol (setCol f ColName.Resistance (resistance_col high))
        ColName.Support (support_col low)
  | _, _ => f

/-- The function calculate_technical_indicators of the source: validate that
a Close column exists, raising the missing column error otherwise, then copy
the input frame and assign the indicator columns in source order. -/
noncomputable def calculate_technical_indicators (data : List (ColName × List ℝ))
    (window ema_short ema_long signal : Nat) :
    Except PipeError (List (ColName × List EF)) :=
  match getCol ColName.Close data with
  | none => Except.error (PipeError.MissingColumn ColName.Close)
  | some close =>
      Except.ok
        (setCol
          (setCol
            (srBlock data
              (atrBlock data close
                (setCol
                  (volumeBlock data close
                    (setCol
                      (setCol
                        (setCol
                          (setCol
                            (setCol
                              (setCol
                                (setCol
                                  (setCol
                                    (setCol
                                      (setCol
                                        (setCol
                                          (setCol
                                            (setCol
                                              (setCol
                                                (setCol
                                                  (setCol
                                                    (setCol
                                                      (data.map (fun p => (p.1, p.2.map EF.fin)))
                                                      ColName.SMA_14 (sma_col window close))
                                                    ColName.SMA_50 (sma_col 50 close))
                                                  ColName.SMA_200 (sma_col 200 close))
                                                ColName.EMA_12 ((ema_col ema_short close).map EF.fin))
                                              ColName.EMA_26 ((ema_col ema_long close).map EF.fin))
                                            ColName.MACD ((macd_col ema_short ema_long close).map EF.fin))
                                          ColName.MACD_Signal ((macd_signal_col ema_short ema_long signal close).map EF.fin))
                                        ColName.MACD_Histogram ((macd_hist_col ema_short ema_long signal close).map EF.fin))
                                      ColName.RSI (rsi_col window close))
                                    ColName.BB_Middle (bb_middle_col close))
                                  ColName.BB_Upper (bb_upper_col close))
                                ColName.BB_Lower (bb_lower_col close))
                              ColName.BB_Width (bb_width_col close))
                            ColName.BB_Position (bb_position_col close))
                          ColName.Momentum_10 (momentum_col 10 close))
                        ColName.Momentum_14 (momentum_col window close))
                      ColName.Price_Change_Pct (pct_change_col close)))
                  ColName.Volatility (volatility_col window close))))
            ColName.Price_Above_SMA50 (price_above_sma50_col close))
          ColName.EMA_Cross (ema_cross_col ema_short ema_long close))

/- The signal generator get_trading_signals: masks and sequential overwrite
   stages. -/

/-- Mask of the oversold rule: RSI below thirty. -/
noncomputable def rsi_buy_mask (rsiC : List EF) (t : Nat) : Bool :=
  EF.ltB (rsiC.getD t EF.nan) (EF.fin 30)

/-- Mask of the overbought rule: RSI above seventy. -/
noncomputable def rsi_sell_mask (rsiC : List EF) (t : Nat) : Bool :=
  EF.ltB (EF.fin 70) (rsiC.getD t EF.nan)

/-- Mask of the MACD cross above rule: MACD above signal now, at most signal
one bar earlier. -/
noncomputable def macd_buy_mask (macdC sigC : List EF) (t : Nat) : Bool :=
  EF.ltB (sigC.getD t EF.nan) (macdC.getD t EF.nan) &&
    EF.leB ((shift1 macdC).getD t EF.nan) ((shift1 sigC).getD t EF.nan)

/-- Mask of the MACD cross below rule. -/
noncomputable def macd_sell_mask (macdC sigC : List EF) (t : Nat) : Bool :=
  EF.ltB (macdC.getD t EF.nan) (sigC.getD t EF.nan) &&
    EF.leB ((shift1 sigC).getD t EF.nan) ((shift1 macdC).getD t EF.nan)

/-- Mask of the Bollinger buy rule: Close below the lower band. -/
noncomputable def boll_buy_mask (closeC bbL : List EF) (t : Nat) : Bool :=
  EF.ltB (closeC.getD t EF.nan) (bbL.getD t EF.nan)

/-- Mask of the Bollinger sell rule: Close above the upper band. -/
noncomputable def boll_sell_mask (closeC bbU : List EF) (t : Nat) : Bool :=
  EF.ltB (bbU.getD t EF.nan) (closeC.getD t EF.nan)

/-- One loc assignment of get_trading_signals: write one at every bar where
the mask holds, keep the previous value of the column elsewhere. -/
noncomputable def apply_rule (mask : Nat → Bool) (prev : List EF) : List EF :=
  (List.range prev.length).map (fun t =>
    if mask t then EF.fin 1 else prev.getD t (EF.fin 0))

/-- The Buy Signal column of get_trading_signals: default zero, then the
three buy rules applied in source order. -/
noncomputable def buy_signal_col (rsiC macdC sigC closeC bbL : List EF) (n : Nat) : List EF :=
  apply_rule (boll_buy_mask closeC bbL)
    (apply_rule (macd_buy_mask macdC sigC)
      (apply_rule (rsi_buy_mask rsiC) (List.replicate n (EF.fin 0))))

/-- The Sell Signal column of get_trading_signals: default zero, then the
three sell rules applied in source order. -/
noncomputable def sell_signal_col (rsiC macdC sigC closeC bbU : List EF) (n : Nat) : List EF :=
  apply_rule (boll_sell_mask closeC bbU)
    (apply_rule (macd_sell_mask macdC sigC)
      (apply_rule (rsi_sell_mask rsiC) (List.replicate n (EF.fin 0))))

/-- The function get_trading_signals of the source: copy the frame, read the
indicator columns, raising a key error when one is absent, and append the two
signal columns built by the sequential overwrite rules. -/
noncomputable def get_trading_signals (data : List (ColName × List EF)) :
    Except PipeError (List (ColName × List EF)) :=
  match getCol ColName.RSI data, getCol ColName.MACD data,
      getCol ColName.MACD_Signal data, getCol ColName.Close data,
      getCol ColName.BB_Lower data, getCol ColName.BB_Upper data with
  | some rsiC, some macdC, some sigC, some closeC, some bbL, some bbU =>
      Except.ok
        (setCol
          (setCol data ColName.Buy_Signal
            (buy_signal_col rsiC macdC sigC closeC bbL closeC.length))
          ColName.Sell_Signal
          (sell_signal_col rsiC macdC sigC closeC bbU closeC.length))
  | _, _, _, _, _, _ => Except.error (PipeError.KeyError ColName.RSI)

/-- The frame of a successful pipeline result, the empty frame on error. -/
def okFrame {e : Type} (x : Except e (List (ColName × List EF))) :
    List (ColName × List EF) :=
  match x with
  | Except.ok f => f
  | Except.error _ => []

/-- Entry of a named column of a frame at a bar, NaN when out of range or
absent, matching the float reading of a missing value. -/
def colAt (f : List (ColName × List EF)) (n : ColName) (t : Nat) : EF :=
  ((getCol n f).getD []).getD t EF.nan

/-- Boolean success test for an Except value. -/
def isOkE {e a : Type} : Except e a → Bool
  | Except.ok _ => true
  | Except.error _ => false

/- Helper lemmas: list indexing, frame access and lengths. -/

theorem range_map_getD {α : Type} (n t : Nat) (f : Nat → α) (d : α) (ht : t < n) :
    ((List.range n).map f).getD t d = f t := by
  simp [List.getD_eq_getElem?_getD, List.getElem?_map, List.getElem?_range ht]

theorem getD_replicate {α : Type} (n : ℕ) (a : α) (t : ℕ) (d : α) (h : t < n) :
    (List.replicate n a).getD t d = a := by
  simp [List.getD_eq_getElem?_getD, List.getElem?_replicate, h]

theorem ewmAux_length (a prev : ℝ) (xs : List ℝ) : (ewmAux a prev xs).length = xs.length := by
  induction xs generalizing prev with
  | nil => rfl
  | cons x xs ih => simp [ewmAux, ih]

theorem ewm_length (a : ℝ) (xs : List ℝ) : (ewm a xs).length = xs.length := by
  cases xs with
  | nil => rfl
  | cons x xs => simp [ewm, ewmAux_length]

theorem diff_length (xs : List ℝ) : (diff xs).length = xs.length := by
  cases xs with
  | nil => rfl
  | cons x rest => simp [diff]

theorem gain_col_length (close : List ℝ) : (gain_col close).length = close.length := by
  simp [gain_col, diff_length]

theorem loss_col_length (close : List ℝ) : (loss_col close).length = close.length := by
  simp [loss_col, diff_length]

theorem avg_gain_col_length (w : Nat) (close : List ℝ) :
    (avg_gain_col w close).length = close.length := by
  simp [avg_gain_col, ewm_length, gain_col_length]

theorem avg_loss_col_length (w : Nat) (close : List ℝ) :
    (avg_loss_col w close).length = close.length := by
  simp [avg_loss_col, ewm_length, loss_col_length]

theorem rollingMeanMin1_length (w : Nat) (xs : List ℝ) :
    (rollingMeanMin1 w xs).length = xs.length := by
  simp [rollingMeanMin1]

theorem rollingMeanStrict_length (w : Nat) (xs : List ℝ) :
    (rollingMeanStrict w xs).length = xs.length := by
  simp [rollingMeanStrict]

theorem rollingStdStrict_length (w : Nat) (xs : List ℝ) :
    (rollingStdStrict w xs).length = xs.length := by
  simp [rollingStdStrict]

theorem getCol_setCol_self {α : Type} (f : List (ColName × α)) (n : ColName) (v : α) :
    getCol n (setCol f n v) = some v := by
  induction f with
  | nil => simp [setCol, getCol]
  | cons p rest ih =>
      by_cases h : p.1 = n
      · simp [setCol, h, getCol]
      · simp [setCol, h, getCol, ih]

theorem getCol_setCol_ne {α : Type} (f : List (ColName × α)) (m n : ColName) (v : α)
    (h : m ≠ n) : getCol n (setCol f m v) = getCol n f := by
  induction f with
  | nil => simp [setCol, getCol, h]
  | cons p rest ih =>
      by_cases hp : p.1 = m
      · simp [setCol, hp, getCol, h, hp ▸ h]
      · simp only [setCol, hp, if_false, getCol]
        by_cases hn : p.1 = n
        · simp [hn]
        · simp [hn, ih]

/- Pointwise facts about the extended value operations. -/

theorem EF.add_nan_left (b : EF) : EF.add .nan b = .nan := by cases b <;> rfl

theorem EF.add_nan_right (a : EF) : EF.add a .nan = .nan := by cases a <;> rfl

theorem EF.add_fin_fin (a b : ℝ) : EF.add (.fin a) (.fin b) = .fin (a + b) := rfl

theorem EF.add_fin_pinf (a : ℝ) : EF.add (.fin a) .pinf = .pinf := rfl

theorem EF.add_fin_ninf (a : ℝ) : EF.add (.fin a) .ninf = .ninf := rfl

theorem EF.neg_fin (b : ℝ) : EF.neg (.fin b) = .fin (-b) := rfl

theorem EF.sub_fin_fin (a b : ℝ) : EF.sub (.fin a) (.fin b) = .fin (a - b) := by
  simp [EF.sub, EF.neg, EF.add, sub_eq_add_neg]

theorem EF.sub_nan_left (b : EF) : EF.sub .nan b = .nan := by cases b <;> rfl

theorem EF.sub_nan_right (a : EF) : EF.sub a .nan = .nan := by cases a <;> rfl

theorem EF.sub_fin_pinf (a : ℝ) : EF.sub (.fin a) .pinf = .ninf := rfl

theorem EF.sub_fin_ninf (a : ℝ) : EF.sub (.fin a) .ninf = .pinf := rfl

theorem EF.mul_nan_left (b : EF) : EF.mul .nan b = .nan := by cases b <;> rfl

theorem EF.mul_nan_right (a : EF) : EF.mul a .nan = .nan := by cases a <;> rfl

theorem EF.mul_fin_fin (a b : ℝ) : EF.mul (.fin a) (.fin b) = .fin (a * b) := rfl

theorem EF.div_nan_left (b : EF) : EF.div .nan b = .nan := by cases b <;> rfl

theorem EF.div_nan_right (a : EF) : EF.div a .nan = .nan := by cases a <;> rfl

theorem EF.div_fin_fin (a b : ℝ) (h : b ≠ 0) : EF.div (.fin a) (.fin b) = .fin (a / b) := by
  simp [EF.div, h]

theorem EF.div_fin_zero_pos (a : ℝ) (h : 0 < a) : EF.div (.fin a) (.fin 0) = .pinf := by
  simp [EF.div, h]

theorem EF.div_fin_zero_neg (a : ℝ) (h : a < 0) : EF.div (.fin a) (.fin 0) = .ninf := by
  simp [EF.div, h, asymm h]

theorem EF.div_zero_zero : EF.div (.fin 0) (.fin 0) = .nan := by
  simp [EF.div]

theorem EF.div_fin_pinf (a : ℝ) : EF.div (.fin a) .pinf = .fin 0 := rfl

theorem EF.ltB_nan_left (b : EF) : EF.ltB .nan b = false := by cases b <;> rfl

theorem EF.ltB_nan_right (a : EF) : EF.ltB a .nan = false := by cases a <;> rfl

theorem EF.ltB_fin_fin (a b : ℝ) : EF.ltB (.fin a) (.fin b) = decide (a < b) := rfl

theorem EF.ltB_fin_fin_true (a b : ℝ) (h : a < b) : EF.ltB (.fin a) (.fin b) = true := by
  simp [EF.ltB, h]

theorem EF.ltB_fin_fin_false (a b : ℝ) (h : b ≤ a) : EF.ltB (.fin a) (.fin b) = false := by
  simp [EF.ltB, not_lt.mpr h]

theorem EF.leB_nan_left (b : EF) : EF.leB .nan b = false := by cases b <;> rfl

theorem EF.leB_nan_right (a : EF) : EF.leB a .nan = false := by cases a <;> rfl

theorem EF.leB_fin_fin (a b : ℝ) : EF.leB (.fin a) (.fin b) = decide (a ≤ b) := rfl

theorem EF.sign_nan : EF.sign .nan = .nan := rfl

theorem EF.sign_fin (a : ℝ) :
    EF.sign (.fin a) = .fin (if 0 < a then 1 else if a < 0 then -1 else 0) := rfl

theorem fillna0_nan : fillna0 .nan = .fin 0 := rfl

theorem fillna0_fin (a : ℝ) : fillna0 (.fin a) = .fin a := rfl

/- Pass through lemmas for the guarded blocks of the indicator engine. -/

theorem getCol_volumeBlock_ne (data : List (ColName × List ℝ)) (close : List ℝ)
    (f : List (ColName × List EF)) (n : ColName)
    (h1 : n ≠ ColName.Volume_SMA) (h2 : n ≠ ColName.Volume_Ratio) (h3 : n ≠ ColName.OBV) :
    getCol n (volumeBlock data close f) = getCol n f := by
  unfold volumeBlock
  cases getCol ColName.Volume data with
  | none => rfl
  | some vol =>
      rw [getCol_setCol_ne _ _ _ _ (Ne.symm h3), getCol_setCol_ne _ _ _ _ (Ne.symm h2),
        getCol_setCol_ne _ _ _ _ (Ne.symm h1)]

theorem getCol_volumeBlock_obv (data : List (ColName × List ℝ)) (close : List ℝ)
    (f : List (ColName × List EF)) (vol : List ℝ)
    (hv : getCol ColName.Volume data = some vol) :
    getCol ColName.OBV (volumeBlock data close f) = some (obv_col close vol) := by
  unfold volumeBlock
  rw [hv]
  exact getCol_setCol_self _ _ _

theorem getCol_atrBlock_ne (data : List (ColName × List ℝ)) (close : List ℝ)
    (f : List (ColName × List EF)) (n : ColName) (h : n ≠ ColName.ATR) :
    getCol n (atrBlock data close f) = getCol n f := by
  unfold atrBlock
  cases getCol ColName.High data <;> cases getCol ColName.Low data <;>
    simp [getCol_setCol_ne _ _ _ _ (Ne.symm h)]

theorem getCol_srBlock_ne (data : List (ColName × List ℝ))
    (f : List (ColName × List EF)) (n : ColName)
    (h1 : n ≠ ColName.Resistance) (h2 : n ≠ ColName.Support) :
    getCol n (srBlock data f) = getCol n f := by
  unfold srBlock
  cases getCol ColName.High data <;> cases getCol ColName.Low data <;>
    simp [getCol_setCol_ne _ _ _ _ (Ne.symm h1), getCol_setCol_ne _ _ _ _ (Ne.symm h2)]

/- Extraction lemmas: reading one output column of the indicator engine. -/

theorem getCol_map_fin (data : List (ColName × List ℝ)) (n : ColName) :
    getCol n (data.map (fun p => (p.1, p.2.map EF.fin))) =
      (getCol n data).map (fun c => c.map EF.fin) := by
  induction data with
  | nil => rfl
  | cons p rest ih =>
      by_cases h : p.1 = n
      · simp [getCol, h]
      · simp [getCol, h, ih]

theorem cti_col_rsi (data : List (ColName × List ℝ)) (close : List ℝ)
    (window es el sg : Nat) (h : getCol ColName.Close data = some close) :
    getCol ColName.RSI (okFrame (calculate_technical_indicators data window es el sg)) =
      some (rsi_col window close) := by
  simp [calculate_technical_indicators, h, okFrame, getCol_setCol_ne, getCol_setCol_self,
    getCol_volumeBlock_ne, getCol_atrBlock_ne, getCol_srBlock_ne]

theorem cti_col_sma14 (data : List (ColName × List ℝ)) (close : List ℝ)
    (window es el sg : Nat) (h : getCol ColName.Close data = some close) :
    getCol ColName.SMA_14 (okFrame (calculate_technical_indicators data window es el sg)) =
      some (sma_col window close) := by
  simp [calculate_technical_indicators, h, okFrame, getCol_setCol_ne, getCol_setCol_self,
    getCol_volumeBlock_ne, getCol_atrBlock_ne, getCol_srBlock_ne]

theorem cti_col_sma50 (data : List (ColName × List ℝ)) (close : List ℝ)
    (window es el sg : Nat) (h : getCol ColName.Close data = some close) :
    getCol ColName.SMA_50 (okFrame (calculate_technical_indicators data window es el sg)) =
      some (sma_col 50 close) := by
  simp [calculate_technical_indicators, h, okFrame, getCol_setCol_ne, getCol_setCol_self,
    getCol_volumeBlock_ne, getCol_atrBlock_ne, getCol_srBlock_ne]

theorem cti_col_sma200 (data : List (ColName × List ℝ)) (close : List ℝ)
    (window es el sg : Nat) (h : getCol ColName.Close data = some close) :
    getCol ColName.SMA_200 (okFrame (calculate_technical_indicators data window es el sg)) =
      some (sma_col 200 close) := by
  simp [calculate_technical_indicators, h, okFrame, getCol_setCol_ne, getCol_setCol_self,
    getCol_volumeBlock_ne, getCol_atrBlock_ne, getCol_srBlock_ne]

theorem cti_col_ema12 (data : List (ColName × List ℝ)) (close : List ℝ)
    (window es el sg : Nat) (h : getCol ColName.Close data = some close) :
    getCol ColName.EMA_12 (okFrame (calculate_technical_indicators data window es el sg)) =
      some ((ema_col es close).map EF.fin) := by
  simp [calculate_technical_indicators, h, okFrame, getCol_setCol_ne, getCol_setCol_self,
    getCol_volumeBlock_ne, getCol_atrBlock_ne, getCol_srBlock_ne]

theorem cti_col_ema26 (data : List (ColName × List ℝ)) (close : List ℝ)
    (window es el sg : Nat) (h : getCol ColName.Close data = some close) :
    getCol ColName.EMA_26 (okFrame (calculate_technical_indicators data window es el sg)) =
      some ((ema_col el close).map EF.fin) := by
  simp [calculate_technical_indicators, h, okFrame, getCol_setCol_ne, getCol_setCol_self,
    getCol_volumeBlock_ne, getCol_atrBlock_ne, getCol_srBlock_ne]

theorem cti_col_macd (data : List (ColName × List ℝ)) (close : List ℝ)
    (window es el sg : Nat) (h : getCol ColName.Close data = some close) :
    getCol ColName.MACD (okFrame (calculate_technical_indicators data window es el sg)) =
      some ((macd_col es el close).map EF.fin) := by
  simp [calculate_technical_indicators, h, okFrame, getCol_setCol_ne, getCol_setCol_self,
    getCol_volumeBlock_ne, getCol_atrBlock_ne, getCol_srBlock_ne]

theorem cti_col_macd_signal (data : List (ColName × List ℝ)) (close : List ℝ)
    (window es el sg : Nat) (h : getCol ColName.Close data = some close) :
    getCol ColName.MACD_Signal (okFrame (calculate_technical_indicators data window es el sg)) =
      some ((macd_signal_col es el sg close).map EF.fin) := by
  simp [calculate_technical_indicators, h, okFrame, getCol_setCol_ne, getCol_setCol_self,
    getCol_volumeBlock_ne, getCol_atrBlock_ne, getCol_srBlock_ne]

theorem cti_col_macd_hist (data : List (ColName × List ℝ)) (close : List ℝ)
    (window es el sg : Nat) (h : getCol ColName.Close data = some close) :
    getCol ColName.MACD_Histogram (okFrame (calculate_technical_indicators data window es el sg)) =
      some ((macd_hist_col es el sg close).map EF.fin) := by
  simp [calculate_technical_indicators, h, okFrame, getCol_setCol_ne, getCol_setCol_self,
    getCol_volumeBlock_ne, getCol_atrBlock_ne, getCol_srBlock_ne]

theorem cti_col_bb_middle (data : List (ColName × List ℝ)) (close : List ℝ)
    (window es el sg : Nat) (h : getCol ColName.Close data = some close) :
    getCol ColName.BB_Middle (okFrame (calculate_technical_indicators data window es el sg)) =
      some (bb_middle_col close) := by
  simp [calculate_technical_indicators, h, okFrame, getCol_setCol_ne, getCol_setCol_self,
    getCol_volumeBlock_ne, getCol_atrBlock_ne, getCol_srBlock_ne]

theorem cti_col_bb_upper (data : List (ColName × List ℝ)) (close : List ℝ)
    (window es el sg : Nat) (h : getCol ColName.Close data = some close) :
    getCol ColName.BB_Upper (okFrame (calculate_technical_indicators data window es el sg)) =
      some (bb_upper_col close) := by
  simp [calculate_technical_indicators, h, okFrame, getCol_setCol_ne, getCol_setCol_self,
    getCol_volumeBlock_ne, getCol_atrBlock_ne, getCol_srBlock_ne]

theorem cti_col_bb_lower (data : List (ColName × List ℝ)) (close : List ℝ)
    (window es el sg : Nat) (h : getCol ColName.Close data = some close) :
    getCol ColName.BB_Lower (okFrame (calculate_technical_indicators data window es el sg)) =
      some (bb_lower_col close) := by
  simp [calculate_technical_indicators, h, okFrame, getCol_setCol_ne, getCol_setCol_self,
    getCol_volumeBlock_ne, getCol_atrBlock_ne, getCol_srBlock_ne]

theorem cti_col_bb_width (data : List (ColName × List ℝ)) (close : List ℝ)
    (window es el sg : Nat) (h : getCol ColName.Close data = some close) :
    getCol ColName.BB_Width (okFrame (calculate_technical_indicators data window es el sg)) =
      some (bb_width_col close) := by
  simp [calculate_technical_indicators, h, okFrame, getCol_setCol_ne, getCol_setCol_self,
    getCol_volumeBlock_ne, getCol_atrBlock_ne, getCol_srBlock_ne]

theorem cti_col_bb_position (data : List (ColName × List ℝ)) (close : List ℝ)
    (window es el sg : Nat) (h : getCol ColName.Close data = some close) :
    getCol ColName.BB_Position (okFrame (calculate_technical_indicators data window es el sg)) =
      some (bb_position_col close) := by
  simp [calculate_technical_indicators, h, okFrame, getCol_setCol_ne, getCol_setCol_self,
    getCol_volumeBlock_ne, getCol_atrBlock_ne, getCol_srBlock_ne]

theorem cti_col_obv (data : List (ColName × List ℝ)) (close vol : List ℝ)
    (window es el sg : Nat) (h : getCol ColName.Close data = some close)
    (hv : getCol ColName.Volume data = some vol) :
    getCol ColName.OBV (okFrame (calculate_technical_indicators data window es el sg)) =
      some (obv_col close vol) := by
  simp [calculate_technical_indicators, h, okFrame, getCol_setCol_ne, getCol_setCol_self,
    getCol_atrBlock_ne, getCol_srBlock_ne]
  rw [getCol_volumeBlock_obv _ _ _ _ hv]

/- Extraction lemmas for the signal generator. -/

theorem gts_ok (data : List (ColName × List EF)) (rsiC macdC sigC closeC bbL bbU : List EF)
    (h1 : getCol ColName.RSI data = some rsiC)
    (h2 : getCol ColName.MACD data = some macdC)
    (h3 : getCol ColName.MACD_Signal data = some sigC)
    (h4 : getCol ColName.Close data = some closeC)
    (h5 : getCol ColName.BB_Lower data = some bbL)
    (h6 : getCol ColName.BB_Upper data = some bbU) :
    get_trading_signals data =
      Except.ok
        (setCol
          (setCol data ColName.Buy_Signal
            (buy_signal_col rsiC macdC sigC closeC bbL closeC.length))
          ColName.Sell_Signal
          (sell_signal_col rsiC macdC sigC closeC bbU closeC.length)) := by
  simp [get_trading_signals, h1, h2, h3, h4, h5, h6]

theorem gts_col_buy (data : List (ColName × List EF)) (rsiC macdC sigC closeC bbL bbU : List EF)
    (h1 : getCol ColName.RSI data = some rsiC)
    (h2 : getCol ColName.MACD data = some macdC)
    (h3 : getCol ColName.MACD_Signal data = some sigC)
    (h4 : getCol ColName.Close data = some closeC)
    (h5 : getCol ColName.BB_Lower data = some bbL)
    (h6 : getCol ColName.BB_Upper data = some bbU) :
    getCol ColName.Buy_Signal (okFrame (get_trading_signals data)) =
      some (buy_signal_col rsiC macdC sigC closeC bbL closeC.length) := by
  rw [gts_ok data rsiC macdC sigC closeC bbL bbU h1 h2 h3 h4 h5 h6]
  simp [okFrame, getCol_setCol_ne, getCol_setCol_self]

theorem gts_col_sell (data : List (ColName × List EF)) (rsiC macdC sigC closeC bbL bbU : List EF)
    (h1 : getCol ColName.RSI data = some rsiC)
    (h2 : getCol ColName.MACD data = some macdC)
    (h3 : getCol ColName.MACD_Signal data = some sigC)
    (h4 : getCol ColName.Close data = some closeC)
    (h5 : getCol ColName.BB_Lower data = some bbL)
    (h6 : getCol ColName.BB_Upper data = some bbU) :
    getCol ColName.Sell_Signal (okFrame (get_trading_signals data)) =
      some (sell_signal_col rsiC macdC sigC closeC bbU closeC.length) := by
  rw [gts_ok data rsiC macdC sigC closeC bbL bbU h1 h2 h3 h4 h5 h6]
  simp [okFrame, getCol_setCol_self]

/- Window arithmetic for the rolling statistics. -/

theorem sum_take_getD (xs : List ℝ) : ∀ k, k ≤ xs.length →
    (xs.take k).sum = ∑ i in Finset.range k, xs.getD i 0 := by
  induction xs with
  | nil =>
      intro k hk
      have hk0 : k = 0 := by simpa using hk
      subst hk0
      simp
  | cons x rest ih =>
      intro k hk
      cases k with
      | zero => simp
      | succ k =>
          have hk2 : k ≤ rest.length := by simpa using hk
          rw [List.take_succ_cons, List.sum_cons, ih k hk2, Finset.sum_range_succ']
          simp [List.getD_cons_succ, List.getD_cons_zero, add_comm]

theorem window_length (xs : List ℝ) (t w : Nat) (ht : t < xs.length) :
    ((xs.take (t + 1)).drop (t + 1 - w)).length = min (t + 1) w := by
  rw [List.length_drop, List.length_take]
  omega

theorem window_sum (xs : List ℝ) (t w : Nat) (ht : t < xs.length) :
    ((xs.take (t + 1)).drop (t + 1 - w)).sum =
      ∑ i in Finset.Icc (t + 1 - w) t, xs.getD i 0 := by
  have ha : t + 1 - w ≤ t + 1 := by omega
  have hsplit : xs.take (t + 1) =
      (xs.take (t + 1)).take (t + 1 - w) ++ (xs.take (t + 1)).drop (t + 1 - w) :=
    (List.take_append_drop _ _).symm
  have htt : (xs.take (t + 1)).take (t + 1 - w) = xs.take (t + 1 - w) := by
    rw [List.take_take]
    congr 1
    omega
  have hsum : (xs.take (t + 1)).sum =
      (xs.take (t + 1 - w)).sum + ((xs.take (t + 1)).drop (t + 1 - w)).sum := by
    conv_lhs => rw [hsplit]
    rw [List.sum_append, htt]
  have h1 : (xs.take (t + 1)).sum = ∑ i in Finset.range (t + 1), xs.getD i 0 :=
    sum_take_getD xs (t + 1) (by omega)
  have h2 : (xs.take (t + 1 - w)).sum = ∑ i in Finset.range (t + 1 - w), xs.getD i 0 :=
    sum_take_getD xs (t + 1 - w) (by omega)
  have := Finset.sum_Ico_eq_sub (fun i => xs.getD i 0) ha
  rw [← Nat.Ico_succ_right]
  rw [this, ← h1, ← h2]
  linarith [hsum]

/- Facts about the exponentially weighted mean. -/

theorem ewm_getD_zero (a x : ℝ) (rest : List ℝ) (d : ℝ) :
    (ewm a (x :: rest)).getD 0 d = x := rfl

theorem ewmAux_spec (a : ℝ) : ∀ (xs : List ℝ) (prev : ℝ) (t : Nat), t < xs.length →
    (ewmAux a prev xs).getD t 0 =
      (1 - a) * (if t = 0 then prev else (ewmAux a prev xs).getD (t - 1) 0) +
        a * xs.getD t 0 := by
  intro xs
  induction xs with
  | nil => intro prev t ht; simp at ht
  | cons x rest ih =>
      intro prev t ht
      cases t with
      | zero => simp [ewmAux]
      | succ s =>
          have hs : s < rest.length := by simpa using ht
          simp only [ewmAux, List.getD_cons_succ]
          rw [ih _ s hs]
          cases s with
          | zero => simp
          | succ u => simp [List.getD_cons_succ]

theorem ewm_getD_succ (a : ℝ) (xs : List ℝ) (t : Nat) (ht : t + 1 < xs.length) :
    (ewm a xs).getD (t + 1) 0 =
      (1 - a) * (ewm a xs).getD t 0 + a * xs.getD (t + 1) 0 := by
  cases xs with
  | nil => simp at ht
  | cons x rest =>
      have hs : t < rest.length := by simpa using ht
      simp only [ewm, List.getD_cons_succ]
      rw [ewmAux_spec a rest x t hs]
      cases t with
      | zero => simp
      | succ u => simp [List.getD_cons_succ]

theorem ewmAux_replicate (a c : ℝ) : ∀ k : Nat,
    ewmAux a c (List.replicate k c) = List.replicate k c := by
  intro k
  induction k with
  | zero => rfl
  | succ k ih =>
      have hc : (1 - a) * c + a * c = c := by ring
      simp only [List.replicate_succ, ewmAux, hc]
      rw [ih]

theorem ewm_replicate (a c : ℝ) (n : Nat) :
    ewm a (List.replicate n c) = List.replicate n c := by
  cases n with
  | zero => rfl
  | succ n => simp only [List.replicate_succ, ewm, ewmAux_replicate]

theorem getD_nonneg (xs : List ℝ) (h : ∀ x ∈ xs, 0 ≤ x) (t : ℕ) : 0 ≤ xs.getD t 0 := by
  rw [List.getD_eq_getElem?_getD]
  cases hx : xs[t]? with
  | none => simp
  | some v =>
      have hv : v ∈ xs := by
        have := List.getElem?_eq_some.mp hx
        obtain ⟨hlt, hget⟩ := this
        exact hget ▸ List.getElem_mem hlt
      simpa using h v hv

theorem ewmAux_nonneg (a : ℝ) (ha0 : 0 ≤ a) (ha1 : a ≤ 1) :
    ∀ (xs : List ℝ) (prev : ℝ), 0 ≤ prev → (∀ x ∈ xs, 0 ≤ x) →
      ∀ y ∈ ewmAux a prev xs, 0 ≤ y := by
  intro xs
  induction xs with
  | nil => intro prev _ _ y hy; simp [ewmAux] at hy
  | cons x rest ih =>
      intro prev hprev hmem y hy
      have hx : 0 ≤ x := hmem x (by simp)
      have hy0 : 0 ≤ (1 - a) * prev + a * x :=
        add_nonneg (mul_nonneg (by linarith) hprev) (mul_nonneg ha0 hx)
      simp only [ewmAux, List.mem_cons] at hy
      rcases hy with h | h
      · exact h ▸ hy0
      · exact ih _ hy0 (fun z hz => hmem z (by simp [hz])) y h

theorem ewm_nonneg (a : ℝ) (ha0 : 0 ≤ a) (ha1 : a ≤ 1) (xs : List ℝ)
    (hxs : ∀ x ∈ xs, 0 ≤ x) : ∀ y ∈ ewm a xs, 0 ≤ y := by
  cases xs with
  | nil => intro y hy; simp [ewm] at hy
  | cons x rest =>
      intro y hy
      simp only [ewm, List.mem_cons] at hy
      rcases hy with h | h
      · exact h ▸ hxs x (by simp)
      · exact ewmAux_nonneg a ha0 ha1 rest x (hxs x (by simp))
          (fun z hz => hxs z (by simp [hz])) y h

theorem gain_col_nonneg (close : List ℝ) : ∀ x ∈ gain_col close, 0 ≤ x := by
  intro x hx
  simp only [gain_col, List.mem_map] at hx
  obtain ⟨d, _, hd⟩ := hx
  cases d with
  | fin v =>
      by_cases hv : 0 < v
      · simp [hv] at hd; exact hd ▸ le_of_lt hv
      · simp [hv] at hd; exact hd ▸ le_refl 0
  | pinf => simp at hd; exact hd ▸ le_refl 0
  | ninf => simp at hd; exact hd ▸ le_refl 0
  | nan => simp at hd; exact hd ▸ le_refl 0

theorem loss_col_nonneg (close : List ℝ) : ∀ x ∈ loss_col close, 0 ≤ x := by
  intro x hx
  simp only [loss_col, List.mem_map] at hx
  obtain ⟨d, _, hd⟩ := hx
  cases d with
  | fin v =>
      by_cases hv : v < 0
      · simp [hv] at hd; exact hd ▸ by linarith
      · simp [hv] at hd; exact hd ▸ le_refl 0
  | pinf => simp at hd; exact hd ▸ le_refl 0
  | ninf => simp at hd; exact hd ▸ le_refl 0
  | nan => simp at hd; exact hd ▸ le_refl 0

/- Behaviour of the indicator columns on a constant price series. -/

theorem rollingMeanMin1_replicate (w n : ℕ) (c : ℝ) (hw : 0 < w) :
    rollingMeanMin1 w (List.replicate n c) = List.replicate n c := by
  unfold rollingMeanMin1
  rw [List.length_replicate]
  rw [List.eq_replicate_iff]
  constructor
  · simp
  · intro b hb
    simp only [List.mem_map, List.mem_range] at hb
    obtain ⟨t, ht, hval⟩ := hb
    have h1 : (List.replicate n c).take (t + 1) = List.replicate (t + 1) c := by
      simp [List.take_replicate]
      omega
    have h2 : (List.replicate (t + 1) c).drop (t + 1 - w) = List.replicate (t + 1 - (t + 1 - w)) c := by
      simp [List.drop_replicate]
    have hk : 0 < t + 1 - (t + 1 - w) := by omega
    rw [h1, h2] at hval
    rw [List.sum_replicate, List.length_replicate] at hval
    rw [← hval, nsmul_eq_mul]
    have hkR : ((t + 1 - (t + 1 - w) : ℕ) : ℝ) ≠ 0 := Nat.cast_ne_zero.mpr (by omega)
    rw [mul_comm, mul_div_assoc, div_self hkR, mul_one]

theorem diff_replicate (n : ℕ) (c : ℝ) :
    diff (List.replicate (n + 1) c) = EF.nan :: List.replicate n (EF.fin 0) := by
  have hz : ∀ m : ℕ,
      List.zipWith (fun a b => EF.fin (b - a)) (c :: List.replicate m c) (List.replicate m c) =
        List.replicate m (EF.fin 0) := by
    intro m
    induction m with
    | zero => rfl
    | succ m ih => simp only [List.replicate_succ, List.zipWith_cons_cons, sub_self] at ih ⊢; rw [ih]
  simp only [List.replicate_succ, diff]
  rw [hz]

theorem gain_col_replicate (n : ℕ) (c : ℝ) :
    gain_col (List.replicate n c) = List.replicate n 0 := by
  cases n with
  | zero => rfl
  | succ n =>
      unfold gain_col
      rw [diff_replicate]
      simp [List.map_replicate, List.replicate_succ]

theorem loss_col_replicate (n : ℕ) (c : ℝ) :
    loss_col (List.replicate n c) = List.replicate n 0 := by
  cases n with
  | zero => rfl
  | succ n =>
      unfold loss_col
      rw [diff_replicate]
      simp [List.map_replicate, List.replicate_succ]

theorem avg_gain_col_replicate (w n : ℕ) (c : ℝ) :
    avg_gain_col w (List.replicate n c) = List.replicate n 0 := by
  unfold avg_gain_col
  rw [gain_col_replicate, ewm_replicate]

theorem avg_loss_col_replicate (w n : ℕ) (c : ℝ) :
    avg_loss_col w (List.replicate n c) = List.replicate n 0 := by
  unfold avg_loss_col
  rw [loss_col_replicate, ewm_replicate]

theorem rs_col_replicate (w n : ℕ) (c : ℝ) :
    rs_col w (List.replicate n c) = List.replicate n EF.nan := by
  unfold rs_col
  rw [avg_gain_col_replicate, avg_loss_col_replicate, List.length_replicate]
  rw [List.eq_replicate_iff]
  refine ⟨by simp, ?_⟩
  intro b hb
  simp only [List.mem_map, List.mem_range] at hb
  obtain ⟨t, ht, hval⟩ := hb
  rw [getD_replicate n 0 t 0 ht] at hval
  rw [← hval, EF.div_zero_zero]

theorem rsi_col_replicate (w n : ℕ) (c : ℝ) :
    rsi_col w (List.replicate n c) = List.replicate n EF.nan := by
  unfold rsi_col
  rw [rs_col_replicate, List.map_replicate]
  rw [EF.add_nan_right, EF.div_nan_right, EF.sub_nan_right]

theorem sma_col_replicate (w n : ℕ) (c : ℝ) (hw : 0 < w) :
    sma_col w (List.replicate n c) = List.replicate n (EF.fin c) := by
  unfold sma_col
  rw [rollingMeanMin1_replicate w n c hw, List.map_replicate]

theorem ema_col_replicate (span n : ℕ) (c : ℝ) :
    ema_col span (List.replicate n c) = List.replicate n c := by
  unfold ema_col
  rw [ewm_replicate]

theorem macd_col_replicate (s l n : ℕ) (c : ℝ) :
    macd_col s l (List.replicate n c) = List.replicate n 0 := by
  unfold macd_col
  rw [ema_col_replicate, ema_col_replicate, List.zipWith_replicate]
  simp

theorem macd_signal_col_replicate (s l sg n : ℕ) (c : ℝ) :
    macd_signal_col s l sg (List.replicate n c) = List.replicate n 0 := by
  unfold macd_signal_col
  rw [macd_col_replicate, ewm_replicate]

theorem macd_hist_col_replicate (s l sg n : ℕ) (c : ℝ) :
    macd_hist_col s l sg (List.replicate n c) = List.replicate n 0 := by
  unfold macd_hist_col
  rw [macd_col_replicate, macd_signal_col_replicate, List.zipWith_replicate]
  simp

theorem cumsumEFAux_zero (k : ℕ) :
    cumsumEFAux (EF.fin 0) (List.replicate k (EF.fin 0)) = List.replicate k (EF.fin 0) := by
  induction k with
  | zero => rfl
  | succ k ih =>
      simp only [List.replicate_succ, cumsumEFAux, EF.add_fin_fin, add_zero] at ih ⊢
      rw [ih]

theorem obv_col_replicate (n : ℕ) (c : ℝ) (vol : List ℝ) :
    obv_col (List.replicate n c) vol = List.replicate n (EF.fin 0) := by
  unfold obv_col
  have hterm : (List.range (List.replicate n c).length).map (fun t =>
      fillna0 (EF.mul (EF.sign ((diff (List.replicate n c)).getD t EF.nan))
        (EF.fin (vol.getD t 0)))) = List.replicate n (EF.fin 0) := by
    rw [List.length_replicate, List.eq_replicate_iff]
    refine ⟨by simp, ?_⟩
    intro b hb
    simp only [List.mem_map, List.mem_range] at hb
    obtain ⟨t, ht, hval⟩ := hb
    cases n with
    | zero => omega
    | succ m =>
        rw [diff_replicate] at hval
        cases t with
        | zero =>
            simp only [List.getD_cons_zero, EF.sign_nan, EF.mul_nan_left, fillna0_nan] at hval
            exact hval.symm
        | succ u =>
            have hu : u < m := by omega
            simp only [List.getD_cons_succ] at hval
            rw [getD_replicate m (EF.fin 0) u EF.nan hu] at hval
            simp only [EF.sign_fin, lt_self_iff_false, if_false, EF.mul_fin_fin,
              zero_mul, fillna0_fin] at hval
            exact hval.symm
  rw [hterm]
  unfold cumsumEF
  exact cumsumEFAux_zero n

/- Small access helpers used by the claim theorems. -/

theorem getD_map_fin (l : List ℝ) (t : Nat) (ht : t < l.length) :
    (l.map EF.fin).getD t EF.nan = EF.fin (l.getD t 0) := by
  have hv : l[t]? = some l[t] := List.getElem?_eq_getElem ht
  rw [List.getD_eq_getElem?_getD, List.getElem?_map, hv,
    List.getD_eq_getElem?_getD, hv]
  rfl

theorem getD_eq_default_of_le {α : Type} (l : List α) (d : α) (t : Nat)
    (h : l.length ≤ t) : l.getD t d = d := by
  rw [List.getD_eq_getElem?_getD, List.getElem?_eq_none (by omega)]
  rfl

theorem gain_col_cons (x : ℝ) (rest : List ℝ) :
    gain_col (x :: rest) = 0 ::
      (List.zipWith (fun a b => EF.fin (b - a)) (x :: rest) rest).map (fun d =>
        match d with
        | EF.fin v => if 0 < v then v else 0
        | _ => 0) := rfl

theorem loss_col_cons (x : ℝ) (rest : List ℝ) :
    loss_col (x :: rest) = 0 ::
      (List.zipWith (fun a b => EF.fin (b - a)) (x :: rest) rest).map (fun d =>
        match d with
        | EF.fin v => if v < 0 then -v else 0
        | _ => 0) := rfl

theorem ewm_getD_zero_of_pos (a : ℝ) (xs : List ℝ) (d : ℝ) (h : 0 < xs.length) :
    (ewm a xs).getD 0 d = xs.getD 0 d := by
  cases xs with
  | nil => simp at h
  | cons x rest => rfl

/-- C4: an input frame without a Close column makes
calculate_technical_indicators fail with the missing column error and produce
no output frame, while any frame with a Close column does not produce this
error. -/
theorem C4_missing_close (data : List (ColName × List ℝ)) (window es el sg : Nat) :
    (getCol ColName.Close data = none →
      calculate_technical_indicators data window es el sg =
        Except.error (PipeError.MissingColumn ColName.Close)) ∧
    ((getCol ColName.Close data).isSome →
      isOkE (calculate_technical_indicators data window es el sg) = true) := by
  constructor
  · intro h
    simp [calculate_technical_indicators, h]
  · intro h
    obtain ⟨close, hc⟩ := Option.isSome_iff_exists.mp h
    simp [calculate_technical_indicators, hc, isOkE]

theorem C4_missing_close_witness :
    (getCol ColName.Close [(ColName.Open, [(1 : ℝ)])] = none ∧
      calculate_technical_indicators [(ColName.Open, [(1 : ℝ)])] 14 12 26 9 =
        Except.error (PipeError.MissingColumn ColName.Close)) ∧
    ((getCol ColName.Close [(ColName.Close, [(1 : ℝ)])]).isSome ∧
      isOkE (calculate_technical_indicators [(ColName.Close, [(1 : ℝ)])] 14 12 26 9) = true) :=
  ⟨⟨rfl, (C4_missing_close [(ColName.Open, [(1 : ℝ)])] 14 12 26 9).1 rfl⟩,
    ⟨rfl, (C4_missing_close [(ColName.Close, [(1 : ℝ)])] 14 12 26 9).2 rfl⟩⟩

/-- C9: for every input series with at least one bar, the RSI column of
calculate_technical_indicators is NaN at the first bar: both smoothed
averages start at zero, so the relative strength quotient at bar zero is
zero over zero. -/
theorem C9_rsi_first_bar_nan (data : List (ColName × List ℝ)) (close : List ℝ)
    (window es el sg : Nat)
    (h : getCol ColName.Close data = some close) (hn : 0 < close.length) :
    colAt (okFrame (calculate_technical_indicators data window es el sg))
      ColName.RSI 0 = EF.nan := by
  rw [colAt, cti_col_rsi data close window es el sg h, Option.getD_some]
  obtain ⟨x, rest, hx⟩ : ∃ x rest, close = x :: rest := by
    cases close with
    | nil => simp at hn
    | cons x rest => exact ⟨x, rest, rfl⟩
  subst hx
  unfold rsi_col rs_col
  rw [List.map_map]
  rw [range_map_getD _ 0 _ _ (by simp)]
  have hg : (avg_gain_col window (x :: rest)).getD 0 0 = 0 := by
    unfold avg_gain_col
    rw [gain_col_cons, ewm_getD_zero_of_pos _ _ _ (by simp)]
    rfl
  have hl : (avg_loss_col window (x :: rest)).getD 0 0 = 0 := by
    unfold avg_loss_col
    rw [loss_col_cons, ewm_getD_zero_of_pos _ _ _ (by simp)]
    rfl
  simp only [Function.comp_apply, hg, hl, EF.div_zero_zero,
    EF.add_nan_right, EF.div_nan_right, EF.sub_nan_right]

theorem C9_rsi_first_bar_nan_witness :
    getCol ColName.Close [(ColName.Close, [(5 : ℝ)])] = some [(5 : ℝ)] ∧
    0 < ([(5 : ℝ)] : List ℝ).length ∧
    colAt (okFrame (calculate_technical_indicators [(ColName.Close, [(5 : ℝ)])] 14 12 26 9))
      ColName.RSI 0 = EF.nan :=
  ⟨rfl, by simp,
    C9_rsi_first_bar_nan [(ColName.Close, [(5 : ℝ)])] [(5 : ℝ)] 14 12 26 9 rfl (by simp)⟩

/- The minimum window SMA formula. -/

theorem sma_col_formula (w : Nat) (close : List ℝ) (t : Nat) (ht : t < close.length) :
    (sma_col w close).getD t EF.nan =
      EF.fin ((∑ i in Finset.Icc (t + 1 - w) t, close.getD i 0) /
        ((t + 1 - (t + 1 - w) : ℕ) : ℝ)) := by
  unfold sma_col rollingMeanMin1
  rw [List.map_map]
  rw [range_map_getD _ t _ _ ht]
  simp only [Function.comp_apply]
  rw [window_sum close t w ht, window_length close t w ht]
  have hmin : min (t + 1) w = t + 1 - (t + 1 - w) := by omega
  rw [hmin]

/-- C2: the SMA columns of calculate_technical_indicators with the default
primary window use the minimum window rule: at every bar t the value is the
arithmetic mean of Close over the bars from max(0, t-w+1) to t, for windows
14, 50 and 200; in particular SMA 14 at bar zero is Close at bar zero and at
bar five it is the mean of the first six bars. -/
theorem C2_sma_min_window (data : List (ColName × List ℝ)) (close : List ℝ)
    (es el sg : Nat) (t : Nat)
    (h : getCol ColName.Close data = some close) (ht : t < close.length) :
    (colAt (okFrame (calculate_technical_indicators data 14 es el sg)) ColName.SMA_14 t =
      EF.fin ((∑ i in Finset.Icc (t + 1 - 14) t, close.getD i 0) /
        ((t + 1 - (t + 1 - 14) : ℕ) : ℝ))) ∧
    (colAt (okFrame (calculate_technical_indicators data 14 es el sg)) ColName.SMA_50 t =
      EF.fin ((∑ i in Finset.Icc (t + 1 - 50) t, close.getD i 0) /
        ((t + 1 - (t + 1 - 50) : ℕ) : ℝ))) ∧
    (colAt (okFrame (calculate_technical_indicators data 14 es el sg)) ColName.SMA_200 t =
      EF.fin ((∑ i in Finset.Icc (t + 1 - 200) t, close.getD i 0) /
        ((t + 1 - (t + 1 - 200) : ℕ) : ℝ))) ∧
    (colAt (okFrame (calculate_technical_indicators data 14 es el sg)) ColName.SMA_14 0 =
      EF.fin (close.getD 0 0)) ∧
    (5 < close.length →
      colAt (okFrame (calculate_technical_indicators data 14 es el sg)) ColName.SMA_14 5 =
        EF.fin ((close.getD 0 0 + close.getD 1 0 + close.getD 2 0 + close.getD 3 0 +
          close.getD 4 0 + close.getD 5 0) / 6)) := by
  refine ⟨?_, ?_, ?_, ?_, ?_⟩
  · rw [colAt, cti_col_sma14 data close 14 es el sg h, Option.getD_some]
    exact sma_col_formula 14 close t ht
  · rw [colAt, cti_col_sma50 data close 14 es el sg h, Option.getD_some]
    exact sma_col_formula 50 close t ht
  · rw [colAt, cti_col_sma200 data close 14 es el sg h, Option.getD_some]
    exact sma_col_formula 200 close t ht
  · rw [colAt, cti_col_sma14 data close 14 es el sg h, Option.getD_some]
    rw [sma_col_formula 14 close 0 (by omega)]
    norm_num
  · intro h5
    rw [colAt, cti_col_sma14 data close 14 es el sg h, Option.getD_some]
    rw [sma_col_formula 14 close 5 h5]
    have hicc : Finset.Icc (5 + 1 - 14) 5 = Finset.range 6 := by
      rw [show 5 + 1 - 14 = 0 from rfl, ← Nat.Ico_succ_right, Nat.Ico_zero_eq_range]
    rw [hicc]
    rw [Finset.sum_range_succ, Finset.sum_range_succ, Finset.sum_range_succ,
      Finset.sum_range_succ, Finset.sum_range_succ, Finset.sum_range_one]
    norm_num

theorem C2_sma_min_window_witness :
    getCol ColName.Close [(ColName.Close, [(10 : ℝ), 12, 8, 4, 6, 9])] =
      some [(10 : ℝ), 12, 8, 4, 6, 9] ∧
    5 < ([(10 : ℝ), 12, 8, 4, 6, 9] : List ℝ).length ∧
    colAt (okFrame (calculate_technical_indicators
        [(ColName.Close, [(10 : ℝ), 12, 8, 4, 6, 9])] 14 12 26 9)) ColName.SMA_14 5 =
      EF.fin (49 / 6) ∧
    colAt (okFrame (calculate_technical_indicators
        [(ColName.Close, [(10 : ℝ), 12, 8, 4, 6, 9])] 14 12 26 9)) ColName.SMA_14 0 =
      EF.fin 10 := by
  have hc : getCol ColName.Close [(ColName.Close, [(10 : ℝ), 12, 8, 4, 6, 9])] =
      some [(10 : ℝ), 12, 8, 4, 6, 9] := rfl
  have hlen : (5 : ℕ) < ([(10 : ℝ), 12, 8, 4, 6, 9] : List ℝ).length := by simp
  have hthm := C2_sma_min_window [(ColName.Close, [(10 : ℝ), 12, 8, 4, 6, 9])]
    [(10 : ℝ), 12, 8, 4, 6, 9] 12 26 9 5 hc hlen
  refine ⟨hc, hlen, ?_, ?_⟩
  · have h5 := hthm.2.2.2.2 hlen
    rw [h5]
    norm_num [List.getD_cons_succ, List.getD_cons_zero]
  · have h0 := hthm.2.2.2.1
    rw [h0]
    norm_num [List.getD_cons_zero]

theorem ema_col_length (span : Nat) (close : List ℝ) :
    (ema_col span close).length = close.length := by
  simp [ema_col, ewm_length]

theorem macd_col_length (s l : Nat) (close : List ℝ) :
    (macd_col s l close).length = close.length := by
  simp [macd_col, List.length_zipWith, ema_col_length]

theorem macd_signal_col_length (s l sg : Nat) (close : List ℝ) :
    (macd_signal_col s l sg close).length = close.length := by
  simp [macd_signal_col, ewm_length, macd_col_length]

/-- C3: the EMA 12 and EMA 26 columns of calculate_technical_indicators obey
the adjust false recursion with smoothing factor 2/(span+1) seeded at the
first Close; the MACD signal column obeys the same recursion over the MACD
column with span nine, seeded at the first MACD value; and on the three bar
series 10, 12, 8 the EMA 12 values are exactly the seeded recursion values. -/
theorem C3_ema_recursion (data : List (ColName × List ℝ)) (close : List ℝ) (w : Nat)
    (h : getCol ColName.Close data = some close) :
    ((0 < close.length →
      colAt (okFrame (calculate_technical_indicators data w 12 26 9)) ColName.EMA_12 0 =
        EF.fin (close.getD 0 0)) ∧
    (∀ t x, 1 ≤ t → t < close.length →
      colAt (okFrame (calculate_technical_indicators data w 12 26 9)) ColName.EMA_12 (t - 1) =
        EF.fin x →
      colAt (okFrame (calculate_technical_indicators data w 12 26 9)) ColName.EMA_12 t =
        EF.fin ((2 / 13) * close.getD t 0 + (1 - 2 / 13) * x))) ∧
    ((0 < close.length →
      colAt (okFrame (calculate_technical_indicators data w 12 26 9)) ColName.EMA_26 0 =
        EF.fin (close.getD 0 0)) ∧
    (∀ t x, 1 ≤ t → t < close.length →
      colAt (okFrame (calculate_technical_indicators data w 12 26 9)) ColName.EMA_26 (t - 1) =
        EF.fin x →
      colAt (okFrame (calculate_technical_indicators data w 12 26 9)) ColName.EMA_26 t =
        EF.fin ((2 / 27) * close.getD t 0 + (1 - 2 / 27) * x))) ∧
    ((0 < close.length →
      colAt (okFrame (calculate_technical_indicators data w 12 26 9)) ColName.MACD_Signal 0 =
        colAt (okFrame (calculate_technical_indicators data w 12 26 9)) ColName.MACD 0) ∧
    (∀ t x y, 1 ≤ t → t < close.length →
      colAt (okFrame (calculate_technical_indicators data w 12 26 9)) ColName.MACD_Signal (t - 1) =
        EF.fin x →
      colAt (okFrame (calculate_technical_indicators data w 12 26 9)) ColName.MACD t =
        EF.fin y →
      colAt (okFrame (calculate_technical_indicators data w 12 26 9)) ColName.MACD_Signal t =
        EF.fin ((2 / 10) * y + (1 - 2 / 10) * x))) ∧
    (colAt (okFrame (calculate_technical_indicators
        [(ColName.Close, [(10 : ℝ), 12, 8])] w 12 26 9)) ColName.EMA_12 0 = EF.fin 10 ∧
    colAt (okFrame (calculate_technical_indicators
        [(ColName.Close, [(10 : ℝ), 12, 8])] w 12 26 9)) ColName.EMA_12 1 =
      EF.fin (10 + (2 / 13) * (12 - 10)) ∧
    colAt (okFrame (calculate_technical_indicators
        [(ColName.Close, [(10 : ℝ), 12, 8])] w 12 26 9)) ColName.EMA_12 2 =
      EF.fin ((10 + (2 / 13) * (12 - 10)) +
        (2 / 13) * (8 - (10 + (2 / 13) * (12 - 10))))) := by
  have hc3 : getCol ColName.Close [(ColName.Close, [(10 : ℝ), 12, 8])] =
      some [(10 : ℝ), 12, 8] := rfl
  refine ⟨⟨?_, ?_⟩, ⟨?_, ?_⟩, ⟨?_, ?_⟩, ?_, ?_, ?_⟩
  · intro hn
    rw [colAt, cti_col_ema12 data close w 12 26 9 h, Option.getD_some]
    rw [getD_map_fin _ 0 (by rw [ema_col_length]; omega)]
    rw [ema_col, ewm_getD_zero_of_pos _ _ _ hn]
  · intro t x h1 ht hprev
    rw [colAt, cti_col_ema12 data close w 12 26 9 h, Option.getD_some] at hprev ⊢
    rw [getD_map_fin _ (t - 1) (by rw [ema_col_length]; omega)] at hprev
    rw [getD_map_fin _ t (by rw [ema_col_length]; omega)]
    have hx : (ema_col 12 close).getD (t - 1) 0 = x := by
      simpa [EF.fin.injEq] using hprev
    have ht1 : t - 1 + 1 = t := by omega
    rw [ema_col] at hx ⊢
    rw [← ht1, ewm_getD_succ _ close (t - 1) (by omega), hx, ht1]
    have hcast : (2 / (((12 : ℕ) : ℝ) + 1)) = 2 / 13 := by norm_num
    rw [hcast]
    congr 1
    ring
  · intro hn
    rw [colAt, cti_col_ema26 data close w 12 26 9 h, Option.getD_some]
    rw [getD_map_fin _ 0 (by rw [ema_col_length]; omega)]
    rw [ema_col, ewm_getD_zero_of_pos _ _ _ hn]
  · intro t x h1 ht hprev
    rw [colAt, cti_col_ema26 data close w 12 26 9 h, Option.getD_some] at hprev ⊢
    rw [getD_map_fin _ (t - 1) (by rw [ema_col_length]; omega)] at hprev
    rw [getD_map_fin _ t (by rw [ema_col_length]; omega)]
    have hx : (ema_col 26 close).getD (t - 1) 0 = x := by
      simpa [EF.fin.injEq] using hprev
    have ht1 : t - 1 + 1 = t := by omega
    rw [ema_col] at hx ⊢
    rw [← ht1, ewm_getD_succ _ close (t - 1) (by omega), hx, ht1]
    have hcast : (2 / (((26 : ℕ) : ℝ) + 1)) = 2 / 27 := by norm_num
    rw [hcast]
    congr 1
    ring
  · intro hn
    rw [colAt, colAt, cti_col_macd_signal data close w 12 26 9 h,
      cti_col_macd data close w 12 26 9 h, Option.getD_some, Option.getD_some]
    rw [getD_map_fin _ 0 (by rw [macd_signal_col_length]; omega),
      getD_map_fin _ 0 (by rw [macd_col_length]; omega)]
    rw [macd_signal_col, ewm_getD_zero_of_pos _ _ _ (by rw [macd_col_length]; omega)]
  · intro t x y h1 ht hprev hy
    rw [colAt, cti_col_macd_signal data close w 12 26 9 h, Option.getD_some] at hprev ⊢
    rw [colAt, cti_col_macd data close w 12 26 9 h, Option.getD_some] at hy
    rw [getD_map_fin _ (t - 1) (by rw [macd_signal_col_length]; omega)] at hprev
    rw [getD_map_fin _ t (by rw [macd_col_length]; omega)] at hy
    rw [getD_map_fin _ t (by rw [macd_signal_col_length]; omega)]
    have hx : (macd_signal_col 12 26 9 close).getD (t - 1) 0 = x := by
      simpa [EF.fin.injEq] using hprev
    have hyy : (macd_col 12 26 close).getD t 0 = y := by
      simpa [EF.fin.injEq] using hy
    have ht1 : t - 1 + 1 = t := by omega
    rw [macd_signal_col] at hx ⊢
    rw [← ht1, ewm_getD_succ _ _ (t - 1) (by rw [macd_col_length]; omega), hx]
    rw [ht1, hyy]
    have hcast : (2 / (((9 : ℕ) : ℝ) + 1)) = 2 / 10 := by norm_num
    rw [hcast]
    congr 1
    ring
  · rw [colAt, cti_col_ema12 _ _ w 12 26 9 hc3, Option.getD_some]
    rw [getD_map_fin _ 0 (by rw [ema_col_length]; simp)]
    rfl
  · rw [colAt, cti_col_ema12 _ _ w 12 26 9 hc3, Option.getD_some]
    rw [getD_map_fin _ 1 (by rw [ema_col_length]; simp)]
    simp only [ema_col, ewm, ewmAux, List.getD_cons_succ, List.getD_cons_zero]
    norm_num
  · rw [colAt, cti_col_ema12 _ _ w 12 26 9 hc3, Option.getD_some]
    rw [getD_map_fin _ 2 (by rw [ema_col_length]; simp)]
    simp only [ema_col, ewm, ewmAux, List.getD_cons_succ, List.getD_cons_zero]
    norm_num

theorem C3_ema_recursion_witness :
    getCol ColName.Close [(ColName.Close, [(10 : ℝ), 12, 8])] = some [(10 : ℝ), 12, 8] ∧
    colAt (okFrame (calculate_technical_indicators
        [(ColName.Close, [(10 : ℝ), 12, 8])] 14 12 26 9)) ColName.EMA_12 1 =
      EF.fin (10 + (2 / 13) * (12 - 10)) :=
  ⟨rfl, (C3_ema_recursion [(ColName.Close, [(10 : ℝ), 12, 8])] [(10 : ℝ), 12, 8] 14
    rfl).2.2.2.2.1⟩

theorem apply_rule_length (mask : Nat → Bool) (prev : List EF) :
    (apply_rule mask prev).length = prev.length := by
  simp [apply_rule]

theorem apply_rule_getD (mask : Nat → Bool) (prev : List EF) (t : Nat)
    (ht : t < prev.length) :
    (apply_rule mask prev).getD t EF.nan =
      if mask t then EF.fin 1 else prev.getD t (EF.fin 0) := by
  unfold apply_rule
  exact range_map_getD _ t _ _ ht

theorem apply_rule_getD0 (mask : Nat → Bool) (prev : List EF) (t : Nat)
    (ht : t < prev.length) :
    (apply_rule mask prev).getD t (EF.fin 0) =
      if mask t then EF.fin 1 else prev.getD t (EF.fin 0) := by
  unfold apply_rule
  exact range_map_getD _ t _ _ ht

/-- C5: in get_trading_signals the Buy and Sell flags are independent columns
written by sequential rules; at a bar where RSI is above seventy and Close is
below the lower Bollinger band, the result is Buy equal one and Sell equal
one, the later Buy rule not resetting the earlier Sell write. -/
theorem C5_rule_precedence (data : List (ColName × List EF))
    (rsiC macdC sigC closeC bbL bbU : List EF) (t : Nat)
    (h1 : getCol ColName.RSI data = some rsiC)
    (h2 : getCol ColName.MACD data = some macdC)
    (h3 : getCol ColName.MACD_Signal data = some sigC)
    (h4 : getCol ColName.Close data = some closeC)
    (h5 : getCol ColName.BB_Lower data = some bbL)
    (h6 : getCol ColName.BB_Upper data = some bbU)
    (ht : t < closeC.length)
    (hs : EF.ltB (EF.fin 70) (rsiC.getD t EF.nan) = true)
    (hb : EF.ltB (closeC.getD t EF.nan) (bbL.getD t EF.nan) = true) :
    colAt (okFrame (get_trading_signals data)) ColName.Buy_Signal t = EF.fin 1 ∧
    colAt (okFrame (get_trading_signals data)) ColName.Sell_Signal t = EF.fin 1 := by
  constructor
  · rw [colAt, gts_col_buy data rsiC macdC sigC closeC bbL bbU h1 h2 h3 h4 h5 h6,
      Option.getD_some]
    unfold buy_signal_col
    rw [apply_rule_getD _ _ t
      (by rw [apply_rule_length, apply_rule_length, List.length_replicate]; exact ht)]
    have hmask : boll_buy_mask closeC bbL t = true := hb
    rw [if_pos hmask]
  · rw [colAt, gts_col_sell data rsiC macdC sigC closeC bbL bbU h1 h2 h3 h4 h5 h6,
      Option.getD_some]
    unfold sell_signal_col
    rw [apply_rule_getD _ _ t
      (by rw [apply_rule_length, apply_rule_length, List.length_replicate]; exact ht)]
    by_cases hbs : boll_sell_mask closeC bbU t
    · simp [hbs]
    · rw [if_neg hbs]
      rw [apply_rule_getD0 _ _ t (by rw [apply_rule_length, List.length_replicate]; exact ht)]
      by_cases hms : macd_sell_mask macdC sigC t
      · simp [hms]
      · rw [if_neg hms]
        rw [apply_rule_getD0 _ _ t (by rw [List.length_replicate]; exact ht)]
        have hmask : rsi_sell_mask rsiC t = true := hs
        rw [if_pos hmask]

theorem C5_rule_precedence_witness :
    EF.ltB (EF.fin 70) (([EF.fin 80] : List EF).getD 0 EF.nan) = true ∧
    EF.ltB (([EF.fin 1] : List EF).getD 0 EF.nan) (([EF.fin 5] : List EF).getD 0 EF.nan) = true ∧
    colAt (okFrame (get_trading_signals
      [(ColName.RSI, [EF.fin 80]), (ColName.MACD, [EF.fin 0]),
       (ColName.MACD_Signal, [EF.fin 0]), (ColName.Close, [EF.fin 1]),
       (ColName.BB_Lower, [EF.fin 5]), (ColName.BB_Upper, [EF.fin 10])]))
      ColName.Buy_Signal 0 = EF.fin 1 ∧
    colAt (okFrame (get_trading_signals
      [(ColName.RSI, [EF.fin 80]), (ColName.MACD, [EF.fin 0]),
       (ColName.MACD_Signal, [EF.fin 0]), (ColName.Close, [EF.fin 1]),
       (ColName.BB_Lower, [EF.fin 5]), (ColName.BB_Upper, [EF.fin 10])]))
      ColName.Sell_Signal 0 = EF.fin 1 := by
  have hs : EF.ltB (EF.fin 70) (([EF.fin 80] : List EF).getD 0 EF.nan) = true := by
    rw [List.getD_cons_zero]
    exact EF.ltB_fin_fin_true 70 80 (by norm_num)
  have hb : EF.ltB (([EF.fin 1] : List EF).getD 0 EF.nan)
      (([EF.fin 5] : List EF).getD 0 EF.nan) = true := by
    rw [List.getD_cons_zero, List.getD_cons_zero]
    exact EF.ltB_fin_fin_true 1 5 (by norm_num)
  have hres := C5_rule_precedence
    [(ColName.RSI, [EF.fin 80]), (ColName.MACD, [EF.fin 0]),
     (ColName.MACD_Signal, [EF.fin 0]), (ColName.Close, [EF.fin 1]),
     (ColName.BB_Lower, [EF.fin 5]), (ColName.BB_Upper, [EF.fin 10])]
    [EF.fin 80] [EF.fin 0] [EF.fin 0] [EF.fin 1] [EF.fin 5] [EF.fin 10] 0
    rfl rfl rfl rfl rfl rfl (by simp) hs hb
  exact ⟨hs, hb, hres.1, hres.2⟩

theorem signal_chain_zero_or_one (m1 m2 m3 : Nat → Bool) (n t : Nat) (ht : t < n) :
    (apply_rule m3 (apply_rule m2 (apply_rule m1
        (List.replicate n (EF.fin 0))))).getD t EF.nan = EF.fin 0 ∨
    (apply_rule m3 (apply_rule m2 (apply_rule m1
        (List.replicate n (EF.fin 0))))).getD t EF.nan = EF.fin 1 := by
  rw [apply_rule_getD _ _ t
    (by rw [apply_rule_length, apply_rule_length, List.length_replicate]; exact ht)]
  by_cases h3 : m3 t
  · right; rw [if_pos h3]
  · rw [if_neg h3,
      apply_rule_getD0 _ _ t (by rw [apply_rule_length, List.length_replicate]; exact ht)]
    by_cases h2 : m2 t
    · right; rw [if_pos h2]
    · rw [if_neg h2, apply_rule_getD0 _ _ t (by rw [List.length_replicate]; exact ht)]
      by_cases h1 : m1 t
      · right; rw [if_pos h1]
      · left; rw [if_neg h1, getD_replicate n (EF.fin 0) t (EF.fin 0) ht]

/-- C10: in get_trading_signals a rule whose input at a bar is NaN never
fires there, since every comparison against NaN is false; on such bars the
signal columns keep the value written by the earlier rules, zero when none
fired, and both flags are always exactly zero or one. -/
theorem C10_undefined_rules (data : List (ColName × List EF))
    (rsiC macdC sigC closeC bbL bbU : List EF) (t : Nat)
    (h1 : getCol ColName.RSI data = some rsiC)
    (h2 : getCol ColName.MACD data = some macdC)
    (h3 : getCol ColName.MACD_Signal data = some sigC)
    (h4 : getCol ColName.Close data = some closeC)
    (h5 : getCol ColName.BB_Lower data = some bbL)
    (h6 : getCol ColName.BB_Upper data = some bbU)
    (ht : t < closeC.length) :
    (rsiC.getD t EF.nan = EF.nan →
      rsi_buy_mask rsiC t = false ∧ rsi_sell_mask rsiC t = false) ∧
    ((macdC.getD t EF.nan = EF.nan ∨ sigC.getD t EF.nan = EF.nan ∨
        (shift1 macdC).getD t EF.nan = EF.nan ∨ (shift1 sigC).getD t EF.nan = EF.nan) →
      macd_buy_mask macdC sigC t = false ∧ macd_sell_mask macdC sigC t = false) ∧
    ((closeC.getD t EF.nan = EF.nan ∨ bbL.getD t EF.nan = EF.nan) →
      boll_buy_mask closeC bbL t = false) ∧
    ((closeC.getD t EF.nan = EF.nan ∨ bbU.getD t EF.nan = EF.nan) →
      boll_sell_mask closeC bbU t = false) ∧
    (boll_buy_mask closeC bbL t = false →
      colAt (okFrame (get_trading_signals data)) ColName.Buy_Signal t =
        (apply_rule (macd_buy_mask macdC sigC) (apply_rule (rsi_buy_mask rsiC)
          (List.replicate closeC.length (EF.fin 0)))).getD t (EF.fin 0)) ∧
    (boll_sell_mask closeC bbU t = false →
      colAt (okFrame (get_trading_signals data)) ColName.Sell_Signal t =
        (apply_rule (macd_sell_mask macdC sigC) (apply_rule (rsi_sell_mask rsiC)
          (List.replicate closeC.length (EF.fin 0)))).getD t (EF.fin 0)) ∧
    (rsi_buy_mask rsiC t = false → macd_buy_mask macdC sigC t = false →
      boll_buy_mask closeC bbL t = false →
      colAt (okFrame (get_trading_signals data)) ColName.Buy_Signal t = EF.fin 0) ∧
    (rsi_sell_mask rsiC t = false → macd_sell_mask macdC sigC t = false →
      boll_sell_mask closeC bbU t = false →
      colAt (okFrame (get_trading_signals data)) ColName.Sell_Signal t = EF.fin 0) ∧
    (colAt (okFrame (get_trading_signals data)) ColName.Buy_Signal t = EF.fin 0 ∨
      colAt (okFrame (get_trading_signals data)) ColName.Buy_Signal t = EF.fin 1) ∧
    (colAt (okFrame (get_trading_signals data)) ColName.Sell_Signal t = EF.fin 0 ∨
      colAt (okFrame (get_trading_signals data)) ColName.Sell_Signal t = EF.fin 1) := by
  have hlen3 : ∀ m1 m2 : Nat → Bool, t <
      (apply_rule m2 (apply_rule m1 (List.replicate closeC.length (EF.fin 0)))).length := by
    intro m1 m2
    rw [apply_rule_length, apply_rule_length, List.length_replicate]
    exact ht
  have hlen2 : ∀ m1 : Nat → Bool, t <
      (apply_rule m1 (List.replicate closeC.length (EF.fin 0))).length := by
    intro m1
    rw [apply_rule_length, List.length_replicate]
    exact ht
  refine ⟨?_, ?_, ?_, ?_, ?_, ?_, ?_, ?_, ?_, ?_⟩
  · intro hnan
    constructor
    · unfold rsi_buy_mask
      rw [hnan]
      exact EF.ltB_nan_left _
    · unfold rsi_sell_mask
      rw [hnan]
      exact EF.ltB_nan_right _
  · intro hnan
    constructor
    · unfold macd_buy_mask
      rcases hnan with hn | hn | hn | hn
      · rw [hn, EF.ltB_nan_right, Bool.false_and]
      · rw [hn, EF.ltB_nan_left, Bool.false_and]
      · rw [hn, EF.leB_nan_left, Bool.and_false]
      · rw [hn, EF.leB_nan_right, Bool.and_false]
    · unfold macd_sell_mask
      rcases hnan with hn | hn | hn | hn
      · rw [hn, EF.ltB_nan_left, Bool.false_and]
      · rw [hn, EF.ltB_nan_right, Bool.false_and]
      · rw [hn, EF.leB_nan_right, Bool.and_false]
      · rw [hn, EF.leB_nan_left, Bool.and_false]
  · intro hnan
    unfold boll_buy_mask
    rcases hnan with hn | hn
    · rw [hn, EF.ltB_nan_left]
    · rw [hn, EF.ltB_nan_right]
  · intro hnan
    unfold boll_sell_mask
    rcases hnan with hn | hn
    · rw [hn, EF.ltB_nan_right]
    · rw [hn, EF.ltB_nan_left]
  · intro hfalse
    rw [colAt, gts_col_buy data rsiC macdC sigC closeC bbL bbU h1 h2 h3 h4 h5 h6,
      Option.getD_some]
    unfold buy_signal_col
    rw [apply_rule_getD _ _ t (hlen3 _ _), if_neg (by rw [hfalse]; exact Bool.false_ne_true)]
  · intro hfalse
    rw [colAt, gts_col_sell data rsiC macdC sigC closeC bbL bbU h1 h2 h3 h4 h5 h6,
      Option.getD_some]
    unfold sell_signal_col
    rw [apply_rule_getD _ _ t (hlen3 _ _), if_neg (by rw [hfalse]; exact Bool.false_ne_true)]
  · intro hf1 hf2 hf3
    rw [colAt, gts_col_buy data rsiC macdC sigC closeC bbL bbU h1 h2 h3 h4 h5 h6,
      Option.getD_some]
    unfold buy_signal_col
    rw [apply_rule_getD _ _ t (hlen3 _ _), if_neg (by rw [hf3]; exact Bool.false_ne_true)]
    rw [apply_rule_getD0 _ _ t (hlen2 _), if_neg (by rw [hf2]; exact Bool.false_ne_true)]
    rw [apply_rule_getD0 _ _ t (by rw [List.length_replicate]; exact ht),
      if_neg (by rw [hf1]; exact Bool.false_ne_true)]
    exact getD_replicate closeC.length (EF.fin 0) t (EF.fin 0) ht
  · intro hf1 hf2 hf3
    rw [colAt, gts_col_sell data rsiC macdC sigC closeC bbL bbU h1 h2 h3 h4 h5 h6,
      Option.getD_some]
    unfold sell_signal_col
    rw [apply_rule_getD _ _ t (hlen3 _ _), if_neg (by rw [hf3]; exact Bool.false_ne_true)]
    rw [apply_rule_getD0 _ _ t (hlen2 _), if_neg (by rw [hf2]; exact Bool.false_ne_true)]
    rw [apply_rule_getD0 _ _ t (by rw [List.length_replicate]; exact ht),
      if_neg (by rw [hf1]; exact Bool.false_ne_true)]
    exact getD_replicate closeC.length (EF.fin 0) t (EF.fin 0) ht
  · rw [colAt, gts_col_buy data rsiC macdC sigC closeC bbL bbU h1 h2 h3 h4 h5 h6,
      Option.getD_some]
    exact signal_chain_zero_or_one _ _ _ closeC.length t ht
  · rw [colAt, gts_col_sell data rsiC macdC sigC closeC bbL bbU h1 h2 h3 h4 h5 h6,
      Option.getD_some]
    exact signal_chain_zero_or_one _ _ _ closeC.length t ht

theorem C10_undefined_rules_witness :
    getCol ColName.RSI
      [(ColName.RSI, [EF.nan]), (ColName.MACD, [EF.nan]),
       (ColName.MACD_Signal, [EF.nan]), (ColName.Close, [EF.fin 1]),
       (ColName.BB_Lower, [EF.nan]), (ColName.BB_Upper, [EF.nan])] = some [EF.nan] ∧
    0 < ([EF.fin 1] : List EF).length ∧
    colAt (okFrame (get_trading_signals
      [(ColName.RSI, [EF.nan]), (ColName.MACD, [EF.nan]),
       (ColName.MACD_Signal, [EF.nan]), (ColName.Close, [EF.fin 1]),
       (ColName.BB_Lower, [EF.nan]), (ColName.BB_Upper, [EF.nan])]))
      ColName.Buy_Signal 0 = EF.fin 0 ∧
    colAt (okFrame (get_trading_signals
      [(ColName.RSI, [EF.nan]), (ColName.MACD, [EF.nan]),
       (ColName.MACD_Signal, [EF.nan]), (ColName.Close, [EF.fin 1]),
       (ColName.BB_Lower, [EF.nan]), (ColName.BB_Upper, [EF.nan])]))
      ColName.Sell_Signal 0 = EF.fin 0 := by
  have T := C10_undefined_rules
    [(ColName.RSI, [EF.nan]), (ColName.MACD, [EF.nan]),
     (ColName.MACD_Signal, [EF.nan]), (ColName.Close, [EF.fin 1]),
     (ColName.BB_Lower, [EF.nan]), (ColName.BB_Upper, [EF.nan])]
    [EF.nan] [EF.nan] [EF.nan] [EF.fin 1] [EF.nan] [EF.nan] 0
    rfl rfl rfl rfl rfl rfl (by simp)
  refine ⟨rfl, by simp, ?_, ?_⟩
  · exact T.2.2.2.2.2.2.1 (T.1 rfl).1 (T.2.1 (Or.inl rfl)).1 (T.2.2.1 (Or.inr rfl))
  · exact T.2.2.2.2.2.2.2.1 (T.1 rfl).2 (T.2.1 (Or.inl rfl)).2 (T.2.2.2.1 (Or.inr rfl))

/-- C7: wherever the RSI column of calculate_technical_indicators carries a
finite value, that value lies in the closed interval from zero to one
hundred. -/
theorem C7_rsi_bounds (data : List (ColName × List ℝ)) (close : List ℝ)
    (w es el sg t : Nat) (x : ℝ)
    (h : getCol ColName.Close data = some close)
    (hx : colAt (okFrame (calculate_technical_indicators data w es el sg))
      ColName.RSI t = EF.fin x) :
    0 ≤ x ∧ x ≤ 100 := by
  rw [colAt, cti_col_rsi data close w es el sg h, Option.getD_some] at hx
  unfold rsi_col rs_col at hx
  rw [List.map_map] at hx
  by_cases ht : t < close.length
  · rw [range_map_getD _ t _ _ ht] at hx
    simp only [Function.comp_apply] at hx
    have ha0 : (0 : ℝ) ≤ 1 / (w : ℝ) := div_nonneg zero_le_one (Nat.cast_nonneg w)
    have ha1 : 1 / (w : ℝ) ≤ 1 := by
      cases w with
      | zero => norm_num
      | succ n =>
          rw [div_le_one (by positivity)]
          exact_mod_cast Nat.succ_le_succ (Nat.zero_le n)
    have hg : 0 ≤ (avg_gain_col w close).getD t 0 :=
      getD_nonneg _ (ewm_nonneg _ ha0 ha1 _ (gain_col_nonneg close)) t
    have hl : 0 ≤ (avg_loss_col w close).getD t 0 :=
      getD_nonneg _ (ewm_nonneg _ ha0 ha1 _ (loss_col_nonneg close)) t
    rcases hl.lt_or_eq with hl0 | hl0
    · rw [EF.div_fin_fin _ _ (ne_of_gt hl0)] at hx
      set r := (avg_gain_col w close).getD t 0 / (avg_loss_col w close).getD t 0 with hr_def
      have hr : 0 ≤ r := div_nonneg hg (le_of_lt hl0)
      have h1r : (0 : ℝ) < 1 + r := by linarith
      rw [EF.add_fin_fin, EF.div_fin_fin _ _ (ne_of_gt h1r), EF.sub_fin_fin] at hx
      have hxx : x = 100 - 100 / (1 + r) := by
        have := (EF.fin.injEq _ _).mp hx
        linarith [this]
      have h2 : 100 / (1 + r) ≤ 100 := by
        rw [div_le_iff₀ h1r]
        nlinarith
      have h3 : (0 : ℝ) < 100 / (1 + r) := by positivity
      constructor <;> [linarith; linarith]
    · rcases hg.lt_or_eq with hg0 | hg0
      · rw [← hl0, EF.div_fin_zero_pos _ hg0, EF.add_fin_pinf, EF.div_fin_pinf,
          EF.sub_fin_fin] at hx
        have hxx : x = 100 - 0 := ((EF.fin.injEq _ _).mp hx).symm
        constructor <;> [linarith; linarith]
      · rw [← hl0, ← hg0, EF.div_zero_zero, EF.add_nan_right, EF.div_nan_right,
          EF.sub_nan_right] at hx
        exact absurd hx (by simp)
  · rw [getD_eq_default_of_le _ _ t (by simp; omega)] at hx
    exact absurd hx (by simp)

theorem C7_rsi_bounds_witness :
    getCol ColName.Close [(ColName.Close, [(1 : ℝ), 2])] = some [(1 : ℝ), 2] ∧
    colAt (okFrame (calculate_technical_indicators
      [(ColName.Close, [(1 : ℝ), 2])] 14 12 26 9)) ColName.RSI 1 = EF.fin 100 ∧
    0 ≤ (100 : ℝ) ∧ (100 : ℝ) ≤ 100 := by
  have hc : getCol ColName.Close [(ColName.Close, [(1 : ℝ), 2])] = some [(1 : ℝ), 2] := rfl
  have hgain : (avg_gain_col 14 [(1 : ℝ), 2]).getD 1 0 = 1 / 14 := by
    unfold avg_gain_col gain_col diff
    norm_num [ewm, ewmAux, List.zipWith, List.getD_cons_succ, List.getD_cons_zero]
  have hloss : (avg_loss_col 14 [(1 : ℝ), 2]).getD 1 0 = 0 := by
    unfold avg_loss_col loss_col diff
    norm_num [ewm, ewmAux, List.zipWith, List.getD_cons_succ, List.getD_cons_zero]
  have hrsi : colAt (okFrame (calculate_technical_indicators
      [(ColName.Close, [(1 : ℝ), 2])] 14 12 26 9)) ColName.RSI 1 = EF.fin 100 := by
    rw [colAt, cti_col_rsi [(ColName.Close, [(1 : ℝ), 2])] [(1 : ℝ), 2] 14 12 26 9 hc,
      Option.getD_some]
    unfold rsi_col rs_col
    rw [List.map_map, range_map_getD _ 1 _ _ (by simp)]
    simp only [Function.comp_apply]
    rw [hgain, hloss, EF.div_fin_zero_pos _ (by norm_num), EF.add_fin_pinf,
      EF.div_fin_pinf, EF.sub_fin_fin]
    norm_num
  exact ⟨hc, hrsi, (C7_rsi_bounds _ _ 14 12 26 9 1 100 hc hrsi).1,
    (C7_rsi_bounds _ _ 14 12 26 9 1 100 hc hrsi).2⟩

/-- The column names written by calculate_technical_indicators, in source
order of first assignment. -/
def cti_written : List ColName :=
  [ColName.SMA_14, ColName.SMA_50, ColName.SMA_200, ColName.EMA_12, ColName.EMA_26,
   ColName.MACD, ColName.MACD_Signal, ColName.MACD_Histogram, ColName.RSI,
   ColName.BB_Middle, ColName.BB_Upper, ColName.BB_Lower, ColName.BB_Width,
   ColName.BB_Position, ColName.Momentum_10, ColName.Momentum_14,
   ColName.Price_Change_Pct, ColName.Volume_SMA, ColName.Volume_Ratio, ColName.OBV,
   ColName.Volatility, ColName.ATR, ColName.Resistance, ColName.Support,
   ColName.Price_Above_SMA50, ColName.EMA_Cross]

/-- C8: neither pipeline stage changes an original column: every column of
the input frame that is not one of the derived indicator names survives
calculate_technical_indicators with its values unchanged, and every column
other than the two signal names survives get_trading_signals unchanged; in
the functional model each stage builds a new frame, so the input frame
itself is untouched. -/
theorem C8_no_mutation :
    (∀ (data : List (ColName × List ℝ)) (close : List ℝ) (w es el sg : Nat) (n : ColName),
      getCol ColName.Close data = some close → n ∉ cti_written →
      getCol n (okFrame (calculate_technical_indicators data w es el sg)) =
        (getCol n data).map (fun c => c.map EF.fin)) ∧
    (∀ (data : List (ColName × List EF)) (rsiC macdC sigC closeC bbL bbU : List EF)
        (n : ColName),
      getCol ColName.RSI data = some rsiC →
      getCol ColName.MACD data = some macdC →
      getCol ColName.MACD_Signal data = some sigC →
      getCol ColName.Close data = some closeC →
      getCol ColName.BB_Lower data = some bbL →
      getCol ColName.BB_Upper data = some bbU →
      n ≠ ColName.Buy_Signal → n ≠ ColName.Sell_Signal →
      getCol n (okFrame (get_trading_signals data)) = getCol n data) := by
  constructor
  · intro data close w es el sg n h hn
    simp only [cti_written, List.mem_cons, List.mem_singleton, not_or] at hn
    obtain ⟨d1, d2, d3, d4, d5, d6, d7, d8, d9, d10, d11, d12, d13, d14, d15, d16,
      d17, d18, d19, d20, d21, d22, d23, d24, d25, d26, -⟩ := hn
    simp only [calculate_technical_indicators, h, okFrame]
    rw [getCol_setCol_ne _ _ _ _ (Ne.symm d26),
      getCol_setCol_ne _ _ _ _ (Ne.symm d25),
      getCol_srBlock_ne _ _ _ d23 d24,
      getCol_atrBlock_ne _ _ _ _ d22,
      getCol_setCol_ne _ _ _ _ (Ne.symm d21),
      getCol_volumeBlock_ne _ _ _ _ d18 d19 d20,
      getCol_setCol_ne _ _ _ _ (Ne.symm d17),
      getCol_setCol_ne _ _ _ _ (Ne.symm d16),
      getCol_setCol_ne _ _ _ _ (Ne.symm d15),
      getCol_setCol_ne _ _ _ _ (Ne.symm d14),
      getCol_setCol_ne _ _ _ _ (Ne.symm d13),
      getCol_setCol_ne _ _ _ _ (Ne.symm d12),
      getCol_setCol_ne _ _ _ _ (Ne.symm d11),
      getCol_setCol_ne _ _ _ _ (Ne.symm d10),
      getCol_setCol_ne _ _ _ _ (Ne.symm d9),
      getCol_setCol_ne _ _ _ _ (Ne.symm d8),
      getCol_setCol_ne _ _ _ _ (Ne.symm d7),
      getCol_setCol_ne _ _ _ _ (Ne.symm d6),
      getCol_setCol_ne _ _ _ _ (Ne.symm d5),
      getCol_setCol_ne _ _ _ _ (Ne.symm d4),
      getCol_setCol_ne _ _ _ _ (Ne.symm d3),
      getCol_setCol_ne _ _ _ _ (Ne.symm d2),
      getCol_setCol_ne _ _ _ _ (Ne.symm d1),
      getCol_map_fin]
  · intro data rsiC macdC sigC closeC bbL bbU n h1 h2 h3 h4 h5 h6 hb hs
    rw [gts_ok data rsiC macdC sigC closeC bbL bbU h1 h2 h3 h4 h5 h6]
    simp only [okFrame]
    rw [getCol_setCol_ne _ _ _ _ (Ne.symm hs), getCol_setCol_ne _ _ _ _ (Ne.symm hb)]

theorem C8_no_mutation_witness :
    getCol ColName.Close [(ColName.Close, [(1 : ℝ)]), (ColName.Open, [(2 : ℝ)])] =
      some [(1 : ℝ)] ∧
    ColName.Open ∉ cti_written ∧
    getCol ColName.Open (okFrame (calculate_technical_indicators
        [(ColName.Close, [(1 : ℝ)]), (ColName.Open, [(2 : ℝ)])] 14 12 26 9)) =
      (getCol ColName.Open [(ColName.Close, [(1 : ℝ)]), (ColName.Open, [(2 : ℝ)])]).map
        (fun c => c.map EF.fin) ∧
    getCol ColName.Close (okFrame (get_trading_signals
        [(ColName.RSI, [EF.fin 50]), (ColName.MACD, [EF.fin 0]),
         (ColName.MACD_Signal, [EF.fin 0]), (ColName.Close, [EF.fin 1]),
         (ColName.BB_Lower, [EF.nan]), (ColName.BB_Upper, [EF.nan])])) =
      getCol ColName.Close
        [(ColName.RSI, [EF.fin 50]), (ColName.MACD, [EF.fin 0]),
         (ColName.MACD_Signal, [EF.fin 0]), (ColName.Close, [EF.fin 1]),
         (ColName.BB_Lower, [EF.nan]), (ColName.BB_Upper, [EF.nan])] := by
  refine ⟨rfl, by decide, ?_, ?_⟩
  · exact C8_no_mutation.1 [(ColName.Close, [(1 : ℝ)]), (ColName.Open, [(2 : ℝ)])]
      [(1 : ℝ)] 14 12 26 9 ColName.Open rfl (by decide)
  · exact C8_no_mutation.2
      [(ColName.RSI, [EF.fin 50]), (ColName.MACD, [EF.fin 0]),
       (ColName.MACD_Signal, [EF.fin 0]), (ColName.Close, [EF.fin 1]),
       (ColName.BB_Lower, [EF.nan]), (ColName.BB_Upper, [EF.nan])]
      [EF.fin 50] [EF.fin 0] [EF.fin 0] [EF.fin 1] [EF.nan] [EF.nan]
      ColName.Close rfl rfl rfl rfl rfl rfl (by decide) (by decide)

/- Helpers for the Bollinger band claim. -/

theorem getD_zipWith {α β γ : Type} (f : α → β → γ) :
    ∀ (as : List α) (bs : List β) (t : Nat) (da : α) (db : β) (dc : γ),
      t < as.length → t < bs.length →
      (List.zipWith f as bs).getD t dc = f (as.getD t da) (bs.getD t db) := by
  intro as
  induction as with
  | nil => intro bs t da db dc ha hb; simp at ha
  | cons a as ih =>
      intro bs t da db dc ha hb
      cases bs with
      | nil => simp at hb
      | cons b bs =>
          cases t with
          | zero => rfl
          | succ s =>
              have hsa : s < as.length := by simpa using ha
              have hsb : s < bs.length := by simpa using hb
              simp only [List.zipWith_cons_cons, List.getD_cons_succ]
              exact ih bs s da db dc hsa hsb

theorem getD_map_real (f : ℝ → ℝ) (l : List ℝ) (t : Nat) (ht : t < l.length) :
    (l.map f).getD t 0 = f (l.getD t 0) := by
  have hv : l[t]? = some l[t] := List.getElem?_eq_getElem ht
  rw [List.getD_eq_getElem?_getD, List.getElem?_map, hv,
    List.getD_eq_getElem?_getD, hv]
  rfl

theorem window_map_sum (xs : List ℝ) (f : ℝ → ℝ) (t w : Nat) (ht : t < xs.length) :
    (((xs.take (t + 1)).drop (t + 1 - w)).map f).sum =
      ∑ i in Finset.Icc (t + 1 - w) t, f (xs.getD i 0) := by
  have hcomm : ((xs.take (t + 1)).drop (t + 1 - w)).map f =
      ((xs.map f).take (t + 1)).drop (t + 1 - w) := by
    rw [List.map_drop, List.map_take]
  rw [hcomm, window_sum (xs.map f) t w (by simpa using ht)]
  refine Finset.sum_congr rfl ?_
  intro i hi
  have hi2 : i < xs.length := by
    have := (Finset.mem_Icc.mp hi).2
    omega
  exact getD_map_real f xs i hi2

theorem bb_middle_col_length (close : List ℝ) :
    (bb_middle_col close).length = close.length := by
  simp [bb_middle_col, rollingMeanStrict_length]

theorem bb_std_col_length (close : List ℝ) :
    (bb_std_col close).length = close.length := by
  simp [bb_std_col, rollingStdStrict_length]

theorem bb_upper_col_length (close : List ℝ) :
    (bb_upper_col close).length = close.length := by
  simp [bb_upper_col, List.length_zipWith, bb_middle_col_length, bb_std_col_length]

theorem bb_lower_col_length (close : List ℝ) :
    (bb_lower_col close).length = close.length := by
  simp [bb_lower_col, List.length_zipWith, bb_middle_col_length, bb_std_col_length]

/-- The twenty bar window mean, written the way the specification states it. -/
noncomputable def bbMeanSpec (close : List ℝ) (t : Nat) : ℝ :=
  (∑ i in Finset.Icc (t + 1 - 20) t, close.getD i 0) / 20

/-- The twenty bar window sample variance with ddof one, written the way the
specification states it. -/
noncomputable def bbVarSpec (close : List ℝ) (t : Nat) : ℝ :=
  (∑ i in Finset.Icc (t + 1 - 20) t, (close.getD i 0 - bbMeanSpec close t) ^ 2) / 19

theorem bb_middle_col_getD (close : List ℝ) (t : Nat) (ht : t < close.length) :
    (bb_middle_col close).getD t EF.nan =
      if t + 1 < 20 then EF.nan else EF.fin (bbMeanSpec close t) := by
  unfold bb_middle_col rollingMeanStrict
  rw [range_map_getD _ t _ _ ht]
  by_cases h20 : t + 1 < 20
  · rw [if_pos h20, if_pos h20]
  · rw [if_neg h20, if_neg h20, window_sum close t 20 ht]
    unfold bbMeanSpec
    norm_num

theorem bb_std_col_getD (close : List ℝ) (t : Nat) (ht : t < close.length) :
    (bb_std_col close).getD t EF.nan =
      if t + 1 < 20 then EF.nan else EF.fin (Real.sqrt (bbVarSpec close t)) := by
  unfold bb_std_col rollingStdStrict
  rw [range_map_getD _ t _ _ ht]
  by_cases h20 : t + 1 < 20
  · rw [if_pos h20, if_pos h20]
  · rw [if_neg h20, if_neg h20]
    have hm : ((close.take (t + 1)).drop (t + 1 - 20)).sum / ((20 : ℕ) : ℝ) =
        bbMeanSpec close t := by
      rw [window_sum close t 20 ht]
      unfold bbMeanSpec
      norm_num
    rw [hm, window_map_sum close (fun x => (x - bbMeanSpec close t) ^ 2) t 20 ht]
    unfold bbVarSpec
    norm_num

/-- C6: the Bollinger columns of calculate_technical_indicators use a strict
twenty bar window: the middle band is NaN for the first nineteen bars and the
trailing twenty bar mean afterwards, the upper and lower bands are the middle
plus and minus twice the twenty bar sample standard deviation, the width is
upper minus lower, and the position is Close minus lower over upper minus
lower, NaN rather than an error where upper equals lower. -/
theorem C6_bollinger (data : List (ColName × List ℝ)) (close : List ℝ)
    (w es el sg t : Nat)
    (h : getCol ColName.Close data = some close) (ht : t < close.length) :
    (t < 19 →
      colAt (okFrame (calculate_technical_indicators data w es el sg)) ColName.BB_Middle t =
        EF.nan ∧
      colAt (okFrame (calculate_technical_indicators data w es el sg)) ColName.BB_Upper t =
        EF.nan ∧
      colAt (okFrame (calculate_technical_indicators data w es el sg)) ColName.BB_Lower t =
        EF.nan ∧
      colAt (okFrame (calculate_technical_indicators data w es el sg)) ColName.BB_Width t =
        EF.nan ∧
      colAt (okFrame (calculate_technical_indicators data w es el sg)) ColName.BB_Position t =
        EF.nan) ∧
    (19 ≤ t →
      colAt (okFrame (calculate_technical_indicators data w es el sg)) ColName.BB_Middle t =
        EF.fin (bbMeanSpec close t) ∧
      colAt (okFrame (calculate_technical_indicators data w es el sg)) ColName.BB_Upper t =
        EF.fin (bbMeanSpec close t + 2 * Real.sqrt (bbVarSpec close t)) ∧
      colAt (okFrame (calculate_technical_indicators data w es el sg)) ColName.BB_Lower t =
        EF.fin (bbMeanSpec close t - 2 * Real.sqrt (bbVarSpec close t))) ∧
    (colAt (okFrame (calculate_technical_indicators data w es el sg)) ColName.BB_Width t =
      EF.sub
        (colAt (okFrame (calculate_technical_indicators data w es el sg)) ColName.BB_Upper t)
        (colAt (okFrame (calculate_technical_indicators data w es el sg)) ColName.BB_Lower t)) ∧
    (colAt (okFrame (calculate_technical_indicators data w es el sg)) ColName.BB_Position t =
      EF.div
        (EF.sub (EF.fin (close.getD t 0))
          (colAt (okFrame (calculate_technical_indicators data w es el sg)) ColName.BB_Lower t))
        (EF.sub
          (colAt (okFrame (calculate_technical_indicators data w es el sg)) ColName.BB_Upper t)
          (colAt (okFrame (calculate_technical_indicators data w es el sg)) ColName.BB_Lower t))) ∧
    (colAt (okFrame (calculate_technical_indicators data w es el sg)) ColName.BB_Upper t =
        colAt (okFrame (calculate_technical_indicators data w es el sg)) ColName.BB_Lower t →
      colAt (okFrame (calculate_technical_indicators data w es el sg)) ColName.BB_Position t =
        EF.nan) := by
  have hmid := bb_middle_col_getD close t ht
  have hstd := bb_std_col_getD close t ht
  have hup : (bb_upper_col close).getD t EF.nan =
      EF.add ((bb_middle_col close).getD t EF.nan)
        (EF.mul ((bb_std_col close).getD t EF.nan) (EF.fin 2)) := by
    unfold bb_upper_col
    exact getD_zipWith _ _ _ t EF.nan EF.nan EF.nan
      (by rw [bb_middle_col_length]; exact ht) (by rw [bb_std_col_length]; exact ht)
  have hlo : (bb_lower_col close).getD t EF.nan =
      EF.sub ((bb_middle_col close).getD t EF.nan)
        (EF.mul ((bb_std_col close).getD t EF.nan) (EF.fin 2)) := by
    unfold bb_lower_col
    exact getD_zipWith _ _ _ t EF.nan EF.nan EF.nan
      (by rw [bb_middle_col_length]; exact ht) (by rw [bb_std_col_length]; exact ht)
  have hwidth : (bb_width_col close).getD t EF.nan =
      EF.sub ((bb_upper_col close).getD t EF.nan) ((bb_lower_col close).getD t EF.nan) := by
    unfold bb_width_col
    exact getD_zipWith _ _ _ t EF.nan EF.nan EF.nan
      (by rw [bb_upper_col_length]; exact ht) (by rw [bb_lower_col_length]; exact ht)
  have hpos : (bb_position_col close).getD t EF.nan =
      EF.div (EF.sub (EF.fin (close.getD t 0)) ((bb_lower_col close).getD t EF.nan))
        (EF.sub ((bb_upper_col close).getD t EF.nan)
          ((bb_lower_col close).getD t EF.nan)) := by
    unfold bb_position_col
    exact range_map_getD _ t _ _ ht
  have emid : colAt (okFrame (calculate_technical_indicators data w es el sg))
      ColName.BB_Middle t = (bb_middle_col close).getD t EF.nan := by
    rw [colAt, cti_col_bb_middle data close w es el sg h, Option.getD_some]
  have eup : colAt (okFrame (calculate_technical_indicators data w es el sg))
      ColName.BB_Upper t = (bb_upper_col close).getD t EF.nan := by
    rw [colAt, cti_col_bb_upper data close w es el sg h, Option.getD_some]
  have elo : colAt (okFrame (calculate_technical_indicators data w es el sg))
      ColName.BB_Lower t = (bb_lower_col close).getD t EF.nan := by
    rw [colAt, cti_col_bb_lower data close w es el sg h, Option.getD_some]
  have ewid : colAt (okFrame (calculate_technical_indicators data w es el sg))
      ColName.BB_Width t = (bb_width_col close).getD t EF.nan := by
    rw [colAt, cti_col_bb_width data close w es el sg h, Option.getD_some]
  have epos : colAt (okFrame (calculate_technical_indicators data w es el sg))
      ColName.BB_Position t = (bb_position_col close).getD t EF.nan := by
    rw [colAt, cti_col_bb_position data close w es el sg h, Option.getD_some]
  refine ⟨?_, ?_, ?_, ?_, ?_⟩
  · intro h19
    have h20 : t + 1 < 20 := by omega
    have hupnan : (bb_upper_col close).getD t EF.nan = EF.nan := by
      rw [hup, hmid, hstd, if_pos h20, if_pos h20, EF.mul_nan_left, EF.add_nan_left]
    have hlonan : (bb_lower_col close).getD t EF.nan = EF.nan := by
      rw [hlo, hmid, hstd, if_pos h20, if_pos h20, EF.mul_nan_left, EF.sub_nan_left]
    refine ⟨?_, ?_, ?_, ?_, ?_⟩
    · rw [emid, hmid, if_pos h20]
    · rw [eup, hupnan]
    · rw [elo, hlonan]
    · rw [ewid, hwidth, hupnan, hlonan, EF.sub_nan_left]
    · rw [epos, hpos, hupnan, hlonan, EF.sub_nan_right, EF.sub_nan_left, EF.div_nan_left]
  · intro h19
    have h20 : ¬t + 1 < 20 := by omega
    refine ⟨?_, ?_, ?_⟩
    · rw [emid, hmid, if_neg h20]
    · rw [eup, hup, hmid, hstd, if_neg h20, if_neg h20, EF.mul_fin_fin, EF.add_fin_fin]
      congr 1
      ring
    · rw [elo, hlo, hmid, hstd, if_neg h20, if_neg h20, EF.mul_fin_fin, EF.sub_fin_fin]
      congr 1
      ring
  · rw [ewid, hwidth, eup, elo]
  · rw [epos, hpos, eup, elo]
  · intro heq
    rw [eup, elo] at heq
    rw [epos, hpos]
    by_cases h20 : t + 1 < 20
    · have hupnan : (bb_upper_col close).getD t EF.nan = EF.nan := by
        rw [hup, hmid, hstd, if_pos h20, if_pos h20, EF.mul_nan_left, EF.add_nan_left]
      have hlonan : (bb_lower_col close).getD t EF.nan = EF.nan := by
        rw [hlo, hmid, hstd, if_pos h20, if_pos h20, EF.mul_nan_left, EF.sub_nan_left]
      rw [hupnan, hlonan, EF.sub_nan_right, EF.sub_nan_left, EF.div_nan_left]
    · have hupv : (bb_upper_col close).getD t EF.nan =
          EF.fin (bbMeanSpec close t + Real.sqrt (bbVarSpec close t) * 2) := by
        rw [hup, hmid, hstd, if_neg h20, if_neg h20, EF.mul_fin_fin, EF.add_fin_fin]
      have hlov : (bb_lower_col close).getD t EF.nan =
          EF.fin (bbMeanSpec close t - Real.sqrt (bbVarSpec close t) * 2) := by
        rw [hlo, hmid, hstd, if_neg h20, if_neg h20, EF.mul_fin_fin, EF.sub_fin_fin]
      rw [hupv, hlov] at heq
      have hs0 : Real.sqrt (bbVarSpec close t) = 0 := by
        have := (EF.fin.injEq _ _).mp heq
        linarith
      have hvarnn : 0 ≤ bbVarSpec close t := by
        unfold bbVarSpec
        apply div_nonneg
        · exact Finset.sum_nonneg (fun i _ => sq_nonneg _)
        · norm_num
      have hvar0 : bbVarSpec close t = 0 := by
        have h2 := Real.sqrt_eq_zero'.mp hs0
        linarith
      have hsum0 : ∑ i in Finset.Icc (t + 1 - 20) t,
          (close.getD i 0 - bbMeanSpec close t) ^ 2 = 0 := by
        unfold bbVarSpec at hvar0
        rw [div_eq_zero_iff] at hvar0
        rcases hvar0 with h0 | h0
        · exact h0
        · norm_num at h0
      have hct : close.getD t 0 = bbMeanSpec close t := by
        have hmem : t ∈ Finset.Icc (t + 1 - 20) t := Finset.mem_Icc.mpr ⟨by omega, le_refl t⟩
        have hz := (Finset.sum_eq_zero_iff_of_nonneg (fun i _ => sq_nonneg _)).mp hsum0 t hmem
        have hz2 : close.getD t 0 - bbMeanSpec close t = 0 :=
          (pow_eq_zero_iff (by norm_num)).mp hz
        linarith
      rw [hupv, hlov, hs0, EF.sub_fin_fin, EF.sub_fin_fin]
      rw [show close.getD t 0 - (bbMeanSpec close t - 0 * 2) = 0 from by rw [hct]; ring,
        show bbMeanSpec close t + 0 * 2 - (bbMeanSpec close t - 0 * 2) = 0 from by ring,
        EF.div_zero_zero]

theorem C6_bollinger_witness :
    getCol ColName.Close [(ColName.Close, List.replicate 20 (1 : ℝ))] =
      some (List.replicate 20 (1 : ℝ)) ∧
    (3 : ℕ) < (List.replicate 20 (1 : ℝ)).length ∧
    colAt (okFrame (calculate_technical_indicators
      [(ColName.Close, List.replicate 20 (1 : ℝ))] 14 12 26 9))
      ColName.BB_Middle 3 = EF.nan := by
  refine ⟨rfl, by simp, ?_⟩
  exact ((C6_bollinger [(ColName.Close, List.replicate 20 (1 : ℝ))]
    (List.replicate 20 (1 : ℝ)) 14 12 26 9 3 rfl (by simp)).1 (by norm_num)).1

/- Constant price series behaviour, shared by the counterexample and the
   amended statement of the first claim. -/

theorem const_series_identities (n : ℕ) (c v : ℝ) (t : ℕ) (ht : t < n) :
    colAt (okFrame (calculate_technical_indicators
      [(ColName.Close, List.replicate n c), (ColName.Volume, List.replicate n v)]
      14 12 26 9)) ColName.SMA_14 t = EF.fin c ∧
    colAt (okFrame (calculate_technical_indicators
      [(ColName.Close, List.replicate n c), (ColName.Volume, List.replicate n v)]
      14 12 26 9)) ColName.SMA_50 t = EF.fin c ∧
    colAt (okFrame (calculate_technical_indicators
      [(ColName.Close, List.replicate n c), (ColName.Volume, List.replicate n v)]
      14 12 26 9)) ColName.SMA_200 t = EF.fin c ∧
    colAt (okFrame (calculate_technical_indicators
      [(ColName.Close, List.replicate n c), (ColName.Volume, List.replicate n v)]
      14 12 26 9)) ColName.EMA_12 t = EF.fin c ∧
    colAt (okFrame (calculate_technical_indicators
      [(ColName.Close, List.replicate n c), (ColName.Volume, List.replicate n v)]
      14 12 26 9)) ColName.EMA_26 t = EF.fin c ∧
    colAt (okFrame (calculate_technical_indicators
      [(ColName.Close, List.replicate n c), (ColName.Volume, List.replicate n v)]
      14 12 26 9)) ColName.MACD t = EF.fin 0 ∧
    colAt (okFrame (calculate_technical_indicators
      [(ColName.Close, List.replicate n c), (ColName.Volume, List.replicate n v)]
      14 12 26 9)) ColName.MACD_Signal t = EF.fin 0 ∧
    colAt (okFrame (calculate_technical_indicators
      [(ColName.Close, List.replicate n c), (ColName.Volume, List.replicate n v)]
      14 12 26 9)) ColName.MACD_Histogram t = EF.fin 0 ∧
    colAt (okFrame (calculate_technical_indicators
      [(ColName.Close, List.replicate n c), (ColName.Volume, List.replicate n v)]
      14 12 26 9)) ColName.OBV t = EF.fin 0 ∧
    colAt (okFrame (calculate_technical_indicators
      [(ColName.Close, List.replicate n c), (ColName.Volume, List.replicate n v)]
      14 12 26 9)) ColName.RSI t = EF.nan := by
  have hc : getCol ColName.Close
      [(ColName.Close, List.replicate n c), (ColName.Volume, List.replicate n v)] =
      some (List.replicate n c) := rfl
  have hv : getCol ColName.Volume
      [(ColName.Close, List.replicate n c), (ColName.Volume, List.replicate n v)] =
      some (List.replicate n v) := rfl
  refine ⟨?_, ?_, ?_, ?_, ?_, ?_, ?_, ?_, ?_, ?_⟩
  · rw [colAt, cti_col_sma14 _ _ 14 12 26 9 hc, Option.getD_some,
      sma_col_replicate 14 n c (by norm_num), getD_replicate n _ t _ ht]
  · rw [colAt, cti_col_sma50 _ _ 14 12 26 9 hc, Option.getD_some,
      sma_col_replicate 50 n c (by norm_num), getD_replicate n _ t _ ht]
  · rw [colAt, cti_col_sma200 _ _ 14 12 26 9 hc, Option.getD_some,
      sma_col_replicate 200 n c (by norm_num), getD_replicate n _ t _ ht]
  · rw [colAt, cti_col_ema12 _ _ 14 12 26 9 hc, Option.getD_some,
      ema_col_replicate, List.map_replicate, getD_replicate n _ t _ ht]
  · rw [colAt, cti_col_ema26 _ _ 14 12 26 9 hc, Option.getD_some,
      ema_col_replicate, List.map_replicate, getD_replicate n _ t _ ht]
  · rw [colAt, cti_col_macd _ _ 14 12 26 9 hc, Option.getD_some,
      macd_col_replicate, List.map_replicate, getD_replicate n _ t _ ht]
  · rw [colAt, cti_col_macd_signal _ _ 14 12 26 9 hc, Option.getD_some,
      macd_signal_col_replicate, List.map_replicate, getD_replicate n _ t _ ht]
  · rw [colAt, cti_col_macd_hist _ _ 14 12 26 9 hc, Option.getD_some,
      macd_hist_col_replicate, List.map_replicate, getD_replicate n _ t _ ht]
  · rw [colAt, cti_col_obv _ _ _ 14 12 26 9 hc hv, Option.getD_some,
      obv_col_replicate, getD_replicate n _ t _ ht]
  · rw [colAt, cti_col_rsi _ _ 14 12 26 9 hc, Option.getD_some,
      rsi_col_replicate, getD_replicate n _ t _ ht]

/-- C1 counterexample: on the constant price series of two hundred bars at
price five with constant volume, the smoothed average loss at the last bar is
zero and all the constant series identities hold there, yet RSI at that bar
is NaN and not one hundred: with no gains either, the relative strength
quotient is zero over zero. -/
theorem C1_rsi_zero_loss_counterexample :
    (avg_loss_col 14 (List.replicate 200 (5 : ℝ))).getD 199 0 = 0 ∧
    colAt (okFrame (calculate_technical_indicators
      [(ColName.Close, List.replicate 200 (5 : ℝ)),
       (ColName.Volume, List.replicate 200 (3 : ℝ))] 14 12 26 9))
      ColName.SMA_200 199 = EF.fin 5 ∧
    colAt (okFrame (calculate_technical_indicators
      [(ColName.Close, List.replicate 200 (5 : ℝ)),
       (ColName.Volume, List.replicate 200 (3 : ℝ))] 14 12 26 9))
      ColName.EMA_12 199 = EF.fin 5 ∧
    colAt (okFrame (calculate_technical_indicators
      [(ColName.Close, List.replicate 200 (5 : ℝ)),
       (ColName.Volume, List.replicate 200 (3 : ℝ))] 14 12 26 9))
      ColName.MACD 199 = EF.fin 0 ∧
    colAt (okFrame (calculate_technical_indicators
      [(ColName.Close, List.replicate 200 (5 : ℝ)),
       (ColName.Volume, List.replicate 200 (3 : ℝ))] 14 12 26 9))
      ColName.MACD_Signal 199 = EF.fin 0 ∧
    colAt (okFrame (calculate_technical_indicators
      [(ColName.Close, List.replicate 200 (5 : ℝ)),
       (ColName.Volume, List.replicate 200 (3 : ℝ))] 14 12 26 9))
      ColName.OBV 199 = EF.fin 0 ∧
    colAt (okFrame (calculate_technical_indicators
      [(ColName.Close, List.replicate 200 (5 : ℝ)),
       (ColName.Volume, List.replicate 200 (3 : ℝ))] 14 12 26 9))
      ColName.RSI 199 = EF.nan ∧
    EF.nan ≠ EF.fin 100 := by
  have hb := const_series_identities 200 5 3 199 (by norm_num)
  refine ⟨?_, hb.2.2.1, hb.2.2.2.1, hb.2.2.2.2.2.1, hb.2.2.2.2.2.2.1,
    hb.2.2.2.2.2.2.2.2.1, hb.2.2.2.2.2.2.2.2.2, ?_⟩
  · rw [avg_loss_col_replicate, getD_replicate 200 _ 199 _ (by norm_num)]
  · intro hcon
    exact EF.noConfusion hcon

/-- C1 amended: when the smoothed average loss at a bar is zero and the
smoothed average gain there is positive, RSI at that bar is one hundred,
through the infinity arithmetic of the float division; but for a constant
price series both averages are zero, so RSI is NaN at every bar while the
other constant series identities hold: all SMAs and EMAs equal the constant,
the MACD line, signal and histogram are zero and OBV stays at zero. -/
theorem C1_rsi_zero_loss_amended :
    (∀ (data : List (ColName × List ℝ)) (close : List ℝ) (w es el sg t : Nat),
      getCol ColName.Close data = some close → t < close.length →
      (avg_loss_col w close).getD t 0 = 0 →
      0 < (avg_gain_col w close).getD t 0 →
      colAt (okFrame (calculate_technical_indicators data w es el sg)) ColName.RSI t =
        EF.fin 100) ∧
    (∀ (n : ℕ) (c v : ℝ) (t : ℕ), t < n →
      colAt (okFrame (calculate_technical_indicators
        [(ColName.Close, List.replicate n c), (ColName.Volume, List.replicate n v)]
        14 12 26 9)) ColName.SMA_14 t = EF.fin c ∧
      colAt (okFrame (calculate_technical_indicators
        [(ColName.Close, List.replicate n c), (ColName.Volume, List.replicate n v)]
        14 12 26 9)) ColName.SMA_50 t = EF.fin c ∧
      colAt (okFrame (calculate_technical_indicators
        [(ColName.Close, List.replicate n c), (ColName.Volume, List.replicate n v)]
        14 12 26 9)) ColName.SMA_200 t = EF.fin c ∧
      colAt (okFrame (calculate_technical_indicators
        [(ColName.Close, List.replicate n c), (ColName.Volume, List.replicate n v)]
        14 12 26 9)) ColName.EMA_12 t = EF.fin c ∧
      colAt (okFrame (calculate_technical_indicators
        [(ColName.Close, List.replicate n c), (ColName.Volume, List.replicate n v)]
        14 12 26 9)) ColName.EMA_26 t = EF.fin c ∧
      colAt (okFrame (calculate_technical_indicators
        [(ColName.Close, List.replicate n c), (ColName.Volume, List.replicate n v)]
        14 12 26 9)) ColName.MACD t = EF.fin 0 ∧
      colAt (okFrame (calculate_technical_indicators
        [(ColName.Close, List.replicate n c), (ColName.Volume, List.replicate n v)]
        14 12 26 9)) ColName.MACD_Signal t = EF.fin 0 ∧
      colAt (okFrame (calculate_technical_indicators
        [(ColName.Close, List.replicate n c), (ColName.Volume, List.replicate n v)]
        14 12 26 9)) ColName.MACD_Histogram t = EF.fin 0 ∧
      colAt (okFrame (calculate_technical_indicators
        [(ColName.Close, List.replicate n c), (ColName.Volume, List.replicate n v)]
        14 12 26 9)) ColName.OBV t = EF.fin 0 ∧
      colAt (okFrame (calculate_technical_indicators
        [(ColName.Close, List.replicate n c), (ColName.Volume, List.replicate n v)]
        14 12 26 9)) ColName.RSI t = EF.nan) := by
  constructor
  · intro data close w es el sg t h ht hl hg
    rw [colAt, cti_col_rsi data close w es el sg h, Option.getD_some]
    unfold rsi_col rs_col
    rw [List.map_map, range_map_getD _ t _ _ ht]
    simp only [Function.comp_apply]
    rw [hl, EF.div_fin_zero_pos _ hg, EF.add_fin_pinf, EF.div_fin_pinf, EF.sub_fin_fin]
    norm_num
  · intro n c v t ht
    exact const_series_identities n c v t ht

theorem C1_rsi_zero_loss_amended_witness :
    getCol ColName.Close [(ColName.Close, [(1 : ℝ), 2])] = some [(1 : ℝ), 2] ∧
    (avg_loss_col 14 [(1 : ℝ), 2]).getD 1 0 = 0 ∧
    0 < (avg_gain_col 14 [(1 : ℝ), 2]).getD 1 0 ∧
    colAt (okFrame (calculate_technical_indicators
      [(ColName.Close, [(1 : ℝ), 2])] 14 12 26 9)) ColName.RSI 1 = EF.fin 100 ∧
    colAt (okFrame (calculate_technical_indicators
      [(ColName.Close, List.replicate 2 (7 : ℝ)), (ColName.Volume, List.replicate 2 (3 : ℝ))]
      14 12 26 9)) ColName.RSI 1 = EF.nan := by
  have hloss : (avg_loss_col 14 [(1 : ℝ), 2]).getD 1 0 = 0 := by
    unfold avg_loss_col loss_col diff
    norm_num [ewm, ewmAux, List.zipWith, List.getD_cons_succ, List.getD_cons_zero]
  have hgain : (avg_gain_col 14 [(1 : ℝ), 2]).getD 1 0 = 1 / 14 := by
    unfold avg_gain_col gain_col diff
    norm_num [ewm, ewmAux, List.zipWith, List.getD_cons_succ, List.getD_cons_zero]
  refine ⟨rfl, hloss, by rw [hgain]; norm_num, ?_, ?_⟩
  · exact C1_rsi_zero_loss_amended.1 [(ColName.Close, [(1 : ℝ), 2])] [(1 : ℝ), 2]
      14 12 26 9 1 rfl (by simp) hloss (by rw [hgain]; norm_num)
  · exact (C1_rsi_zero_loss_amended.2 2 7 3 1 (by norm_num)).2.2.2.2.2.2.2.2.2
